import Mathlib

/-!
# The 3D position arrow of the map renderer (`drape_frontend/arrow3d.cpp`)

A shallow embedding of the mesh loading path (`fast_obj_adapter`, `LoadMesh`),
of the construction of `Arrow3d` and of the pass selection of
`Arrow3d::Render`, followed by the properties proved about them.

Conventions of the embedding:

* a C++ `float` that is only copied is an element of an arbitrary type `α`;
* `uint32_t` / `unsigned int` arithmetic is arithmetic on `Nat` reduced
  modulo `2 ^ 32`, `size_t` arithmetic is reduced modulo `2 ^ sizeBits`;
* a statement that can stop the program is a value of `Exec`: it completes
  with a value, trips a `CHECK`, throws a `RootException`, or indexes a
  vector outside its bounds.
-/

namespace df

/-! ## Outcomes of a run -/

/-- Outcome of running a statement: normal completion with a value, a failed
`CHECK` (the process is aborted), a thrown `RootException` carrying `what()`,
or an access outside the bounds of a buffer. -/
inductive Exec (σ : Type) where
  | ok (value : σ)
  | checkFailed
  | raised (what : String)
  | undefinedBehaviour
deriving DecidableEq, Repr

namespace Exec

/-- Sequencing: the continuation runs only after normal completion. -/
def bind {σ τ : Type} (x : Exec σ) (f : σ → Exec τ) : Exec τ :=
  match x with
  | ok v => f v
  | checkFailed => checkFailed
  | raised what => raised what
  | undefinedBehaviour => undefinedBehaviour

/-- The run either completes or leaves the bounds of a vector: it trips no
`CHECK` and throws nothing. -/
def okOrOutside {σ : Type} (x : Exec σ) : Prop :=
  match x with
  | Exec.ok _ => True
  | Exec.undefinedBehaviour => True
  | _ => False

end Exec

/-! ## Constants of `arrow3d.cpp` -/

/-- Reduction of a natural number to the range of `uint32_t`. -/
def u32 (n : Nat) : Nat := n % 2 ^ 32

def kComponentsInVertex : Nat := 3
def kComponentsInNormal : Nat := 3
def kComponentsInTexCoord : Nat := 2

/-- The value of `sizeof(float)`. -/
def sizeofFloat : Nat := 4

def kOutlineScale : ℚ := 12 / 10

def kArrow3DShadowColor : String := "Arrow3DShadow"
def kArrow3DObsoleteColor : String := "Arrow3DObsolete"
def kArrow3DColor : String := "Arrow3D"
def kArrow3DOutlineColor : String := "Arrow3DOutline"

def kDefaultArrowMesh : String := "arrow.obj"
def kDefaultArrowShadowMesh : String := "arrow_shadow.obj"

def kMainFileId : String := "main_obj_file_id"

namespace arrow3d

def kArrowSize : ℚ := 12
def kArrow3dScaleMin : ℚ := 1
def kArrow3dScaleMax : ℚ := 22 / 10
def kArrow3dMinZoom : ℤ := 16

end arrow3d

/-! ## The byte stream behind the adapter -/

/-- One byte of the stream. -/
abbrev Byte := Fin 256

/-- Modelled from the spec: `ReaderSource<ReaderPtr<Reader>>` of
`coding/reader.hpp`, "a seekable byte stream exposing current position,
remaining size, and a bounded read". `pos` is the current position and `rest`
the bytes from the current position to the end of the underlying reader. -/
structure ReaderSource where
  pos : Nat
  rest : List Byte
deriving DecidableEq, Repr

namespace ReaderSource

/-- Remaining size of the stream, `Size()`. -/
def Size (reader : ReaderSource) : Nat := reader.rest.length

/-- Current position of the stream, `Pos()`. -/
def Pos (reader : ReaderSource) : Nat := reader.pos

/-- Bounded read, `Read(p, size)`: hands out the next `size` bytes and
advances the position by `size`; reading past the end throws. -/
def Read (reader : ReaderSource) (size : Nat) : Exec (List Byte × ReaderSource) :=
  if size ≤ reader.rest.length then
    Exec.ok (reader.rest.take size, { pos := reader.pos + size, rest := reader.rest.drop size })
  else
    Exec.raised "Reader::SizeException"

end ReaderSource

/-! ## `fast_obj_adapter` -/

namespace fast_obj_adapter

/-- The callback `FileOpen(path, userData)`: only the main OBJ file can be opened. A
pointer is an `Option`, with `none` for `nullptr`. -/
def FileOpen {β : Type} (path : String) (userData : Option β) : Option β :=
  if kMainFileId != path then none else userData

/-- The callback `FileClose(file, userData)` does nothing. -/
def FileClose {β : Type} (_file : Option β) (_userData : Option β) : Unit := ()

/-- The callback `FileRead(file, dst, bytes, userData)` for a `size_t` of `sizeBits` bits.
The value is the returned count, the bytes written to the front of `dst`, and
the stream after the call. -/
def FileRead (sizeBits : Nat) (userData : Option ReaderSource) (bytes : Nat) :
    Exec (Nat × List Byte × ReaderSource) :=
  match userData with
  | none => Exec.checkFailed
  | some reader =>
    let sz := reader.Size
    if sz = 0 then
      Exec.ok (0, [], reader)
    else
      let bytes := if bytes > sz then sz % 2 ^ sizeBits else bytes
      let p := reader.Pos
      (reader.Read bytes).bind fun (written, reader) =>
        if p ≤ reader.Pos then
          Exec.ok ((reader.Pos - p) % 2 ^ sizeBits, written, reader)
        else
          Exec.checkFailed

/-- The callback `FileSize(file, userData)` for a `size_t` (and `unsigned long`) of
`sizeBits` bits; `2 ^ sizeBits - 1` is `std::numeric_limits<size_t>::max()`. -/
def FileSize (sizeBits : Nat) (userData : Option ReaderSource) : Exec Nat :=
  match userData with
  | none => Exec.checkFailed
  | some reader =>
    if reader.Size < 2 ^ sizeBits - 1 then
      Exec.ok (reader.Size % 2 ^ sizeBits)
    else
      Exec.checkFailed

end fast_obj_adapter

/-! ## The parsed mesh and its flattening -/

/-- One face corner of the parser (`fastObjIndex`): indices into the position,
texture coordinate and normal arrays. -/
structure fastObjIndex where
  p : Nat
  t : Nat
  n : Nat
deriving DecidableEq, Repr

/-- The fields of the parser's `fastObjMesh` that `LoadMesh` reads. The counts
are `unsigned int`; the arrays hold 3, 2 and 3 floats per entry. -/
structure fastObjMesh (α : Type) where
  position_count : Nat
  positions : List α
  texcoord_count : Nat
  texcoords : List α
  normal_count : Nat
  normals : List α
  index_count : Nat
  indices : List fastObjIndex
deriving DecidableEq, Repr

/-- The three vectors `LoadMesh` fills and hands to the completion handler. -/
structure MeshBuffers (α : Type) where
  positions : List α
  normals : List α
  texCoords : List α
deriving DecidableEq, Repr

/-- The call `memcpy(&dst[d], &src[s], sizeof(float) * n)`: both ranges must lie inside
their vectors. -/
def memcpy {α : Type} (dst : List α) (d : Nat) (src : List α) (s : Nat) (n : Nat) :
    Exec (List α) :=
  if d + n ≤ dst.length ∧ s + n ≤ src.length then
    Exec.ok (dst.take d ++ (src.drop s).take n ++ dst.drop (d + n))
  else
    Exec.undefinedBehaviour

/-- The statements `std::vector<float> v; if (count > 1) v.resize(index_count * components);`
with the product taken in `unsigned int`. -/
def resizeChannel {α : Type} [Zero α] (count index_count components : Nat) : List α :=
  if count > 1 then List.replicate (u32 (index_count * components)) 0 else []

/-- One of the three guarded copies of the loop body: when the channel has more
than one entry, copy the entry with index `idx` (the field of `indices[i]`
belonging to the channel) to slot `i` of `dst`. -/
def copyCorner {α : Type} (count components : Nat) (dst : List α) (i : Nat)
    (src : List α) (idx : Option Nat) : Exec (List α) :=
  if count > 1 then
    match idx with
    | none => Exec.undefinedBehaviour
    | some k => memcpy dst (u32 (i * components)) src (u32 (k * components)) components
  else
    Exec.ok dst

/-- The body of the flattening loop for corner `i`. -/
def fillCorner {α : Type} (meshData : fastObjMesh α) (i : Nat) (b : MeshBuffers α) :
    Exec (MeshBuffers α) :=
  (copyCorner meshData.position_count kComponentsInVertex b.positions i
      meshData.positions (meshData.indices[i]?.map fastObjIndex.p)).bind fun positions =>
  (copyCorner meshData.normal_count kComponentsInNormal b.normals i
      meshData.normals (meshData.indices[i]?.map fastObjIndex.n)).bind fun normals =>
  (copyCorner meshData.texcoord_count kComponentsInTexCoord b.texCoords i
      meshData.texcoords (meshData.indices[i]?.map fastObjIndex.t)).bind fun texCoords =>
  Exec.ok { positions := positions, normals := normals, texCoords := texCoords }

/-- The loop `for (uint32_t i = ...; i < index_count; ++i)` started at `i` with
`remaining = index_count - i` iterations to go. -/
def fillLoop {α : Type} (meshData : fastObjMesh α) :
    Nat → Nat → MeshBuffers α → Exec (MeshBuffers α)
  | 0, _, b => Exec.ok b
  | remaining + 1, i, b => (fillCorner meshData i b).bind (fillLoop meshData remaining (i + 1))

/-- The "Fill buffers" part of `LoadMesh`: the three resizes and the loop. -/
def fillBuffers {α : Type} [Zero α] (meshData : fastObjMesh α) : Exec (MeshBuffers α) :=
  fillLoop meshData meshData.index_count 0
    { positions := resizeChannel meshData.position_count meshData.index_count kComponentsInVertex
      normals := resizeChannel meshData.normal_count meshData.index_count kComponentsInNormal
      texCoords := resizeChannel meshData.texcoord_count meshData.index_count
        kComponentsInTexCoord }

/-! ## `LoadMesh` -/

/-- What the collaborators of `LoadMesh` do for one resource name: the resource
lookup or the stream throws a `RootException` while the parser runs, or
`fast_obj_read_with_callbacks` returns its `fastObjMesh *` (possibly null). -/
inductive ParseResult (α : Type) where
  | raised (what : String)
  | parsed (meshData : Option (fastObjMesh α))
deriving DecidableEq, Repr

/-- The function `LoadMesh(pathToMesh, completionHandler, failureHandler)`. The callbacks
act on a state `σ`; a null `std::function` is `none`. The value is the returned
`bool` and the state left by the callbacks. An exception thrown inside the
`try` block, also by the completion handler, is caught; a callback that throws
is one whose result is `raised`, which carries no state, so the failure
handler then runs on the state from before that call. -/
def LoadMesh {α σ : Type} [Zero α] (resources : String → ParseResult α) (pathToMesh : String)
    (completionHandler : Option (MeshBuffers α → σ → Exec σ))
    (failureHandler : Option (String → σ → Exec σ)) (s : σ) : Exec (Bool × σ) :=
  match completionHandler, failureHandler with
  | none, _ => Exec.checkFailed
  | some _, none => Exec.checkFailed
  | some completion, some failure =>
    let tryBlock : Exec σ :=
      match resources pathToMesh with
      | ParseResult.raised what => Exec.raised what
      | ParseResult.parsed none => Exec.checkFailed
      | ParseResult.parsed (some meshData) =>
        (fillBuffers meshData).bind fun b => completion b s
    match tryBlock with
    | Exec.raised what => (failure what s).bind fun s => Exec.ok (false, s)
    | Exec.ok s => Exec.ok (true, s)
    | Exec.checkFailed => Exec.checkFailed
    | Exec.undefinedBehaviour => Exec.undefinedBehaviour

/-! ## Mesh objects of the rendering backend -/

/-- Modelled from the spec: one raw float buffer of a `dp::MeshObject`
(`drape/mesh_object.hpp`), installed under a buffer index with a stride in
bytes. -/
structure MeshBuffer (α : Type) where
  bufferInd : Nat
  data : List α
  stride : Nat
deriving DecidableEq, Repr

/-- Modelled from the spec: a named attribute of a `dp::MeshObject` bound to a
buffer, "named-attribute binding to raw float buffers". -/
structure MeshAttribute where
  attributeName : String
  bufferInd : Nat
  offset : Nat
  componentsCount : Nat
deriving DecidableEq, Repr

/-- Modelled from the spec: `dp::MeshObject` (`drape/mesh_object.hpp`), a
"mesh-buffer object supporting named-attribute binding to raw float buffers". -/
structure MeshObject (α : Type) where
  buffers : List (MeshBuffer α)
  attributes : List MeshAttribute
deriving DecidableEq, Repr

namespace MeshObject

/-- A mesh object without buffers, as left by its constructor. -/
def empty {α : Type} : MeshObject α := { buffers := [], attributes := [] }

/-- Modelled from the spec: `MeshObject::SetBuffer(bufferInd, std::move(vertices), stride)`
installs the vector under `bufferInd`, replacing what was there. The vector is
taken by rvalue reference and moved into the mesh object: the second component
is the state in which the call leaves the vector of the caller, which is empty. -/
def SetBuffer {α : Type} (mesh : MeshObject α) (bufferInd : Nat) (vertices : List α)
    (stride : Nat) : MeshObject α × List α :=
  ({ mesh with
      buffers := mesh.buffers.filter (fun b => b.bufferInd != bufferInd) ++
        [{ bufferInd := bufferInd, data := vertices, stride := stride }] }, [])

/-- Modelled from the spec: `MeshObject::SetAttribute(name, bufferInd, offset, componentsCount)`
binds a named attribute to a buffer. -/
def SetAttribute {α : Type} (mesh : MeshObject α) (attributeName : String)
    (bufferInd offset componentsCount : Nat) : MeshObject α :=
  { mesh with
      attributes := mesh.attributes ++
        [{ attributeName := attributeName, bufferInd := bufferInd, offset := offset,
           componentsCount := componentsCount }] }

/-- The data installed under a buffer index, if any. -/
def bufferData {α : Type} (mesh : MeshObject α) (bufferInd : Nat) : Option (List α) :=
  (mesh.buffers.find? (fun b => b.bufferInd == bufferInd)).map MeshBuffer.data

/-- Modelled from the spec: `MeshObject::GenerateNormalsForTriangles(vertices, componentsCount)`,
"for N triangles with no source normals, the synthesized buffer has length 9N,
and all three normals of a triangle equal the normalized cross product of its
edge vectors". `triangleNormal` computes that normalized cross product from the
three corners of a triangle. -/
def GenerateNormalsForTriangles {α : Type} [Zero α]
    (triangleNormal : α × α × α → α × α × α → α × α × α → α × α × α)
    (vertices : List α) (componentsCount : Nat) : List α :=
  let trianglesCount := vertices.length / (3 * componentsCount)
  (List.range trianglesCount).flatMap fun triangle =>
    let corner (vertex : Nat) : α × α × α :=
      let offset := triangle * componentsCount * 3 + vertex * componentsCount
      (vertices.getD offset 0, vertices.getD (offset + 1) 0, vertices.getD (offset + 2) 0)
    let normal := triangleNormal (corner 0) (corner 1) (corner 2)
    [normal.1, normal.2.1, normal.2.2, normal.1, normal.2.1, normal.2.2,
     normal.1, normal.2.1, normal.2.2]

end MeshObject

/-! ## The marker -/

namespace gpu

/-- The GPU programs used by the arrow. -/
inductive Program where
  | Arrow3d
  | Arrow3dShadow
  | Arrow3dOutline
deriving DecidableEq, Repr

end gpu

/-- Modelled from the spec: the part of `dp::RenderState` the arrow touches,
its program, the depth test flag and the colour texture. -/
structure RenderState where
  program : gpu.Program
  depthTestEnabled : Bool
  colorTexture : Option Nat
deriving DecidableEq, Repr

/-- Modelled from the spec: `CreateRenderState(program, depthLayer)`. -/
def CreateRenderState (program : gpu.Program) : RenderState :=
  { program := program, depthTestEnabled := false, colorTexture := none }

/-- Modelled from the spec: the members of `Arrow3d` declared in
`drape_frontend/arrow3d.hpp`, the two mesh objects, the render state and the
placement state "position (2D point), azimuth (radians), obsolete flag, mesh
offset (3-vector), mesh Euler-rotation override (3-vector), mesh scale
override (3-vector)". -/
structure Arrow3d (α : Type) where
  m_arrowMesh : MeshObject α
  m_shadowMesh : MeshObject α
  m_state : RenderState
  m_position : ℚ × ℚ
  m_azimuth : ℚ
  m_obsoletePosition : Bool
  m_meshOffset : ℚ × ℚ × ℚ
  m_meshEulerAngles : ℚ × ℚ × ℚ
  m_meshScale : ℚ × ℚ × ℚ
deriving DecidableEq, Repr

/-- The constructor at work: the marker built so far and the lines written by
`LOG(LERROR, ...)`. -/
structure Construction (α : Type) where
  marker : Arrow3d α
  log : List String
deriving DecidableEq, Repr

namespace Arrow3d

def kVerticesBufferInd : Nat := 0
def kNormalsBufferInd : Nat := 1
def kTexCoordShadowBufferInd : Nat := 1

/-- The marker after the member initialisers and `SetDepthTestEnabled(true)`,
before the meshes are loaded. -/
def initial {α : Type} : Arrow3d α :=
  { m_arrowMesh := MeshObject.empty
    m_shadowMesh := MeshObject.empty
    m_state := { CreateRenderState gpu.Program.Arrow3d with depthTestEnabled := true }
    m_position := (0, 0)
    m_azimuth := 0
    m_obsoletePosition := false
    m_meshOffset := (0, 0, 0)
    m_meshEulerAngles := (0, 0, 0)
    m_meshScale := (1, 1, 1) }

/-- The completion handler of the first `LoadMesh` call (arrow mesh). -/
def arrowMeshLoaded {α : Type} [Zero α]
    (triangleNormal : α × α × α → α × α × α → α × α × α → α × α × α)
    (b : MeshBuffers α) (c : Construction α) : Exec (Construction α) :=
  let positions := b.positions
  let normals := b.normals
  -- Positions.
  if positions.isEmpty then Exec.checkFailed else
  let (mesh, positions) :=
    c.marker.m_arrowMesh.SetBuffer kVerticesBufferInd positions (sizeofFloat * kComponentsInVertex)
  let mesh := mesh.SetAttribute "a_pos" kVerticesBufferInd 0 kComponentsInVertex
  -- Normals.
  let normals :=
    if normals.isEmpty then
      MeshObject.GenerateNormalsForTriangles triangleNormal positions kComponentsInNormal
    else normals
  let (mesh, _) := mesh.SetBuffer kNormalsBufferInd normals (sizeofFloat * kComponentsInNormal)
  let mesh := mesh.SetAttribute "a_normal" kNormalsBufferInd 0 kComponentsInNormal
  Exec.ok { c with marker := { c.marker with m_arrowMesh := mesh } }

/-- The completion handler of the second `LoadMesh` call (shadow mesh). -/
def shadowMeshLoaded {α : Type} (b : MeshBuffers α) (c : Construction α) :
    Exec (Construction α) :=
  let positions := b.positions
  let texCoords := b.texCoords
  -- Positions.
  if positions.isEmpty then Exec.checkFailed else
  let (mesh, _) :=
    c.marker.m_shadowMesh.SetBuffer kVerticesBufferInd positions
      (sizeofFloat * kComponentsInVertex)
  let mesh := mesh.SetAttribute "a_pos" kVerticesBufferInd 0 kComponentsInVertex
  -- Texture coordinates.
  let (mesh, _) :=
    mesh.SetBuffer kTexCoordShadowBufferInd texCoords (sizeofFloat * kComponentsInTexCoord)
  let mesh := mesh.SetAttribute "a_texCoords" kTexCoordShadowBufferInd 0 kComponentsInTexCoord
  Exec.ok { c with marker := { c.marker with m_shadowMesh := mesh } }

/-- The failure handler of both `LoadMesh` calls: `LOG(LERROR, (reason))`. -/
def logFailure {α : Type} (reason : String) (c : Construction α) : Exec (Construction α) :=
  Exec.ok { c with log := c.log ++ [reason] }

/-- The constructor `Arrow3d::Arrow3d(context)`: the two loads in order. The
returned `bool` of `LoadMesh` is discarded. -/
def construct {α : Type} [Zero α] (resources : String → ParseResult α)
    (triangleNormal : α × α × α → α × α × α → α × α × α → α × α × α) :
    Exec (Construction α) :=
  (LoadMesh resources kDefaultArrowMesh (some (arrowMeshLoaded triangleNormal))
      (some logFailure) { marker := initial, log := [] }).bind fun r =>
  (LoadMesh resources kDefaultArrowShadowMesh (some shadowMeshLoaded)
      (some logFailure) r.2).bind fun r =>
  Exec.ok r.2

end Arrow3d

/-! ## Rendering -/

/-- Modelled from the spec: the part of `ScreenBase` (`geometry/screenbase.hpp`)
read by the arrow, the "ViewParameters": perspective flag, current scale,
rotation angle, pixel viewport size, 3D scale, the forward transform `GtoP`
and the 3D projection matrix. -/
structure ScreenBase where
  isPerspective : Bool
  GetScale : ℚ
  GetAngle : ℚ
  PixelRectSizeX : ℚ
  PixelRectSizeY : ℚ
  GetScale3d : ℚ
  GtoP : ℚ × ℚ → ℚ × ℚ
  Pto3dMatrix : Fin 4 → Fin 4 → ℚ

/-- The mesh member a pass draws. -/
inductive MeshId where
  | m_arrowMesh
  | m_shadowMesh
deriving DecidableEq, Repr

/-- The arguments of one `RenderArrow` call, which issues one draw call. -/
structure RenderPass where
  mesh : MeshId
  program : gpu.Program
  color : String
  dz : ℚ
  scaleFactor : ℚ
deriving DecidableEq, Repr

namespace Arrow3d

/-- The method `Arrow3d::Render(context, mng, screen, routingMode)` as the list of its
`RenderArrow` calls in program order. -/
def Render {α : Type} (self : Arrow3d α) (screen : ScreenBase) (routingMode : Bool) :
    List RenderPass :=
  -- Render shadow.
  (if screen.isPerspective then
    [{ mesh := MeshId.m_shadowMesh, program := gpu.Program.Arrow3dShadow
       color := kArrow3DShadowColor, dz := 5 / 100
       scaleFactor := if routingMode then kOutlineScale else 1 }]
  else []) ++
  -- Render outline.
  (if routingMode then
    [{ mesh := MeshId.m_shadowMesh, program := gpu.Program.Arrow3dOutline
       color := kArrow3DOutlineColor, dz := 0, scaleFactor := kOutlineScale }]
  else []) ++
  -- Render arrow.
  [{ mesh := MeshId.m_arrowMesh, program := gpu.Program.Arrow3d
     color := if self.m_obsoletePosition then kArrow3DObsoleteColor else kArrow3DColor
     dz := 0, scaleFactor := 1 }]

end Arrow3d

/-! ## Vectors, quaternions and matrices of the math library -/

namespace glm

/-- A `glm::vec3`. -/
abbrev vec3 := ℚ × ℚ × ℚ

/-- A `glm::vec4`, indexed by component. -/
abbrev vec4 := Fin 4 → ℚ

/-- A `glm::mat4` in mathematical indexing: `m r c` is the entry of row `r` and
column `c`, which the library, storing columns, writes `m[c][r]`. -/
abbrev mat4 := Fin 4 → Fin 4 → ℚ

/-- A `glm::quat`. -/
structure quat where
  w : ℚ
  x : ℚ
  y : ℚ
  z : ℚ
deriving DecidableEq, Repr

/-- The product `a * b` of two matrices. -/
def mul (a b : mat4) : mat4 :=
  fun r c => a r 0 * b 0 c + a r 1 * b 1 c + a r 2 * b 2 c + a r 3 * b 3 c

/-- The product `m * v` of a matrix and a column vector. -/
def mulVec (m : mat4) (v : vec4) : vec4 :=
  fun r => m r 0 * v 0 + m r 1 * v 1 + m r 2 * v 2 + m r 3 * v 3

/-- The componentwise product `a * b` of two `vec3`. -/
def mulVec3 (a b : vec3) : vec3 := (a.1 * b.1, a.2.1 * b.2.1, a.2.2 * b.2.2)

/-- The quaternion `glm::angleAxis(angle, axis)`, with the cosine and the sine
of the math library as parameters. -/
def angleAxis (cos sin : ℚ → ℚ) (angle : ℚ) (axis : vec3) : quat :=
  let s := sin (angle * (1 / 2))
  { w := cos (angle * (1 / 2)), x := axis.1 * s, y := axis.2.1 * s, z := axis.2.2 * s }

/-- The product `p * q` of two quaternions. -/
def quatMul (p q : quat) : quat :=
  { w := p.w * q.w - p.x * q.x - p.y * q.y - p.z * q.z
    x := p.w * q.x + p.x * q.w + p.y * q.z - p.z * q.y
    y := p.w * q.y + p.y * q.w + p.z * q.x - p.x * q.z
    z := p.w * q.z + p.z * q.w + p.x * q.y - p.y * q.x }

/-- The vector with the four given components. -/
def components (a b c d : ℚ) : vec4 :=
  fun i => match i with
    | 0 => a
    | 1 => b
    | 2 => c
    | 3 => d

/-- The matrix with the four given rows. -/
def rows (r0 r1 r2 r3 : vec4) : mat4 :=
  fun i => match i with
    | 0 => r0
    | 1 => r1
    | 2 => r2
    | 3 => r3

/-- The rotation matrix `glm::mat4_cast(q)`. -/
def mat4_cast (q : quat) : mat4 :=
  rows
    (components (1 - 2 * (q.y * q.y + q.z * q.z)) (2 * (q.x * q.y - q.w * q.z))
      (2 * (q.x * q.z + q.w * q.y)) 0)
    (components (2 * (q.x * q.y + q.w * q.z)) (1 - 2 * (q.x * q.x + q.z * q.z))
      (2 * (q.y * q.z - q.w * q.x)) 0)
    (components (2 * (q.x * q.z - q.w * q.y)) (2 * (q.y * q.z + q.w * q.x))
      (1 - 2 * (q.x * q.x + q.y * q.y)) 0)
    (components 0 0 0 1)

/-- The matrix `glm::scale(glm::mat4(1.0f), v)`. -/
def scale (v : vec3) : mat4 :=
  rows (components v.1 0 0 0) (components 0 v.2.1 0 0) (components 0 0 v.2.2 0)
    (components 0 0 0 1)

/-- The matrix `glm::translate(glm::mat4(1.0f), v)`. -/
def translate (v : vec3) : mat4 :=
  rows (components 1 0 0 v.1) (components 0 1 0 v.2.1) (components 0 0 1 v.2.2)
    (components 0 0 0 1)

/-- The assignment `m[c][r] = value` of one entry. -/
def setEntry (m : mat4) (c r : Fin 4) (value : ℚ) : mat4 :=
  fun r1 c1 => if r1 = r ∧ c1 = c then value else m r1 c1

end glm

/-! ## The transform of one pass -/

namespace dp

/-- Modelled from the spec: `dp::ApiVersion` (`drape/drape_global.hpp`), the
"depth-range convention (backend flavor)". `Metal` is the flavour that
`CalculateTransform` treats as having a `[0,1]` z range. -/
inductive ApiVersion where
  | Invalid
  | OpenGLES2
  | OpenGLES3
  | Metal
  | Vulkan
deriving DecidableEq, Repr

end dp

/-- What `CalculateTransform` takes from outside `arrow3d.cpp`: the cosine and
sine of the math library, `VisualParams::Instance().GetVisualScale()` and the
function `GetNormalizedZoomLevel`. -/
structure Surroundings where
  cos : ℚ → ℚ
  sin : ℚ → ℚ
  GetVisualScale : ℚ
  GetNormalizedZoomLevel : ℚ → ℤ → ℚ

/-- Modelled from the spec: `GetNormalizedZoomLevel(screenScale, minZoom)` of
`drape_frontend/visual_params.cpp`, "a `[0,1]` value derived from current view
scale relative to a minimum-zoom threshold": the zoom level of the scale above
the threshold, as a share of the zoom range, clamped to `[0,1]`. `zoomLevel`
is the zoom level of a view scale and `maxZoom` the upper end of the range. -/
def GetNormalizedZoomLevel (zoomLevel : ℚ → ℚ) (maxZoom : ℚ) (screenScale : ℚ)
    (minZoom : ℤ) : ℚ :=
  max 0 (min 1 ((zoomLevel screenScale - minZoom) / (maxZoom - minZoom)))

namespace Arrow3d

/-- The interpolation factor `kArrow3dScaleMin * (1.0 - t) + kArrow3dScaleMax * t`
of `CalculateTransform`. -/
def scaleMultiplier (t : ℚ) : ℚ :=
  arrow3d.kArrow3dScaleMin * (1 - t) + arrow3d.kArrow3dScaleMax * t

/-- The local `arrowScale` of `CalculateTransform` after the perspective branch. -/
def arrowScale (env : Surroundings) (screen : ScreenBase) (scaleFactor : ℚ) : ℚ :=
  let arrowScale := env.GetVisualScale * arrow3d.kArrowSize * scaleFactor
  if screen.isPerspective then
    let t := env.GetNormalizedZoomLevel screen.GetScale arrow3d.kArrow3dMinZoom
    arrowScale * scaleMultiplier t
  else arrowScale

/-- The local `rotationMatrix` of `CalculateTransform`. -/
def rotationMatrix {α : Type} (env : Surroundings) (self : Arrow3d α) (screen : ScreenBase) :
    glm.mat4 :=
  let qx := glm.angleAxis env.cos env.sin self.m_meshEulerAngles.1 (1, 0, 0)
  let qy := glm.angleAxis env.cos env.sin self.m_meshEulerAngles.2.1 (0, 1, 0)
  let qz := glm.angleAxis env.cos env.sin
    (self.m_azimuth + screen.GetAngle + self.m_meshEulerAngles.2.2) (0, 0, -1)
  glm.mat4_cast (glm.quatMul (glm.quatMul qz qy) qx)

/-- The local `scaleMatrix` of `CalculateTransform`. -/
def scaleMatrix {α : Type} (env : Surroundings) (self : Arrow3d α) (screen : ScreenBase)
    (scaleFactor : ℚ) : glm.mat4 :=
  let arrowScale := arrowScale env screen scaleFactor
  glm.scale (glm.mulVec3
    (arrowScale, arrowScale, if screen.isPerspective then arrowScale else 1) self.m_meshScale)

/-- The local `postProjectionScale` of `CalculateTransform`. -/
def postProjectionScale (screen : ScreenBase) : glm.vec3 :=
  let x := 2 / screen.PixelRectSizeX
  let y := 2 / screen.PixelRectSizeY
  (x, y, if screen.isPerspective then min x y * screen.GetScale3d else 1 / 10)

/-- The vector `{dX, -dY, dz}` of `CalculateTransform`. -/
def postProjectionTranslation {α : Type} (self : Arrow3d α) (screen : ScreenBase) (dz : ℚ) :
    glm.vec3 :=
  let pos := screen.GtoP self.m_position
  let dX := 2 * pos.1 / screen.PixelRectSizeX - 1
  let dY := 2 * pos.2 / screen.PixelRectSizeY - 1
  (dX, -dY, dz)

/-- The local `modelTransform` of `CalculateTransform` before the two branches
on the view mode and the API version. -/
def modelTransform {α : Type} (env : Surroundings) (self : Arrow3d α) (screen : ScreenBase)
    (dz scaleFactor : ℚ) : glm.mat4 :=
  let translationMatrix := glm.translate self.m_meshOffset
  let postProjectionScaleMatrix := glm.scale (postProjectionScale screen)
  let postProjectionTranslationMatrix := glm.translate (postProjectionTranslation self screen dz)
  glm.mul (glm.mul (glm.mul (glm.mul postProjectionTranslationMatrix postProjectionScaleMatrix)
    (scaleMatrix env self screen scaleFactor)) translationMatrix) (rotationMatrix env self screen)

/-- The local `pTo3dView` of `CalculateTransform`: the bytes of the row-major
`screen.Pto3dMatrix()` read as a `glm::mat4`, which stores columns. -/
def pTo3dView (screen : ScreenBase) : glm.mat4 :=
  fun r c => screen.Pto3dMatrix c r

/-- The method `Arrow3d::CalculateTransform(screen, dz, scaleFactor, apiVersion)`. -/
def CalculateTransform {α : Type} (env : Surroundings) (self : Arrow3d α) (screen : ScreenBase)
    (dz scaleFactor : ℚ) (apiVersion : dp.ApiVersion) : glm.mat4 :=
  let modelTransform := modelTransform env self screen dz scaleFactor
  if screen.isPerspective then
    glm.mul (pTo3dView screen) modelTransform
  else if apiVersion = dp.ApiVersion.Metal then
    let modelTransform := glm.setEntry modelTransform 3 2 (modelTransform 2 3 + 1 / 2)
    glm.setEntry modelTransform 2 2 (modelTransform 2 2 * (1 / 2))
  else
    modelTransform

/-- The static method `Arrow3d::GetMaxBottomSize()`. -/
def GetMaxBottomSize : ℚ :=
  let kBottomSize : ℚ := 1
  kBottomSize * arrow3d.kArrowSize * arrow3d.kArrow3dScaleMax * kOutlineScale

/-- The method `Arrow3d::SetPosition(position)`. -/
def SetPosition {α : Type} (self : Arrow3d α) (position : ℚ × ℚ) : Arrow3d α :=
  { self with m_position := position }

/-- The method `Arrow3d::SetAzimuth(azimuth)`. -/
def SetAzimuth {α : Type} (self : Arrow3d α) (azimuth : ℚ) : Arrow3d α :=
  { self with m_azimuth := azimuth }

/-- The method `Arrow3d::SetTexture(texMng)`; the argument is the symbols texture
of the texture manager. -/
def SetTexture {α : Type} (self : Arrow3d α) (symbolsTexture : Nat) : Arrow3d α :=
  { self with m_state := { self.m_state with colorTexture := some symbolsTexture } }

/-- The method `Arrow3d::SetPositionObsolete(obsolete)`. -/
def SetPositionObsolete {α : Type} (self : Arrow3d α) (obsolete : Bool) : Arrow3d α :=
  { self with m_obsoletePosition := obsolete }

/-- The method `Arrow3d::SetMeshOffset(offset)`. -/
def SetMeshOffset {α : Type} (self : Arrow3d α) (offset : glm.vec3) : Arrow3d α :=
  { self with m_meshOffset := offset }

/-- The method `Arrow3d::SetMeshRotation(eulerAngles)`. -/
def SetMeshRotation {α : Type} (self : Arrow3d α) (eulerAngles : glm.vec3) : Arrow3d α :=
  { self with m_meshEulerAngles := eulerAngles }

/-- The method `Arrow3d::SetMeshScale(scale)`. -/
def SetMeshScale {α : Type} (self : Arrow3d α) (scale : glm.vec3) : Arrow3d α :=
  { self with m_meshScale := scale }

end Arrow3d

/-! ## Reference semantics of the flattening -/

/-- Entry `k` of an array that stores `components` floats per entry. -/
def tuple {α : Type} (components : Nat) (xs : List α) (k : Nat) : List α :=
  (xs.drop (k * components)).take components

/-- The entries selected by a list of indices, concatenated in order. -/
def gather {α : Type} (components : Nat) (src : List α) (idxs : List Nat) : List α :=
  idxs.flatMap (tuple components src)

/-- The flattened channel as the specification describes it: one entry per face
corner when the source has more than one entry, nothing otherwise. -/
def flatChannel {α : Type} (count components : Nat) (src : List α) (idxs : List Nat) : List α :=
  if count > 1 then gather components src idxs else []

/-- The buffers the specification describes for a parsed mesh. -/
def flatten {α : Type} (meshData : fastObjMesh α) : MeshBuffers α :=
  { positions := flatChannel meshData.position_count kComponentsInVertex meshData.positions
      (meshData.indices.map fastObjIndex.p)
    normals := flatChannel meshData.normal_count kComponentsInNormal meshData.normals
      (meshData.indices.map fastObjIndex.n)
    texCoords := flatChannel meshData.texcoord_count kComponentsInTexCoord meshData.texcoords
      (meshData.indices.map fastObjIndex.t) }

/-- What the parser guarantees about a mesh it returns: the arrays have the
sizes the counts announce, and counts and array sizes are `unsigned int`. -/
structure WellFormed {α : Type} (meshData : fastObjMesh α) : Prop where
  positions_size : meshData.positions.length = 3 * meshData.position_count
  normals_size : meshData.normals.length = 3 * meshData.normal_count
  texcoords_size : meshData.texcoords.length = 2 * meshData.texcoord_count
  indices_size : meshData.indices.length = meshData.index_count
  positions_u32 : meshData.positions.length < 2 ^ 32
  normals_u32 : meshData.normals.length < 2 ^ 32
  texcoords_u32 : meshData.texcoords.length < 2 ^ 32
  indices_u32 : meshData.index_count < 2 ^ 32

/-- Every face corner refers to an existing entry of each channel that has more
than one entry. -/
def InRange {α : Type} (meshData : fastObjMesh α) : Prop :=
  ∀ ix ∈ meshData.indices,
    (meshData.position_count > 1 → ix.p < meshData.position_count) ∧
    (meshData.normal_count > 1 → ix.n < meshData.normal_count) ∧
    (meshData.texcoord_count > 1 → ix.t < meshData.texcoord_count)

instance {α : Type} (meshData : fastObjMesh α) : Decidable (InRange meshData) := by
  unfold InRange; infer_instance

/-- The state of one output vector when the loop reaches corner `i`: the first
`i` slots are filled, the others still hold the zeros of `resize`. -/
def slotState {α : Type} [Zero α] (count components : Nat) (src : List α) (idxs : List Nat)
    (i : Nat) : List α :=
  if count > 1 then
    gather components src (idxs.take i) ++ List.replicate (components * (idxs.length - i)) 0
  else []

/-- The three output vectors when the loop reaches corner `i`. -/
def loopState {α : Type} [Zero α] (meshData : fastObjMesh α) (i : Nat) : MeshBuffers α :=
  { positions := slotState meshData.position_count kComponentsInVertex meshData.positions
      (meshData.indices.map fastObjIndex.p) i
    normals := slotState meshData.normal_count kComponentsInNormal meshData.normals
      (meshData.indices.map fastObjIndex.n) i
    texCoords := slotState meshData.texcoord_count kComponentsInTexCoord meshData.texcoords
      (meshData.indices.map fastObjIndex.t) i }

/-- The destination bounds of one loop iteration, relative to the lengths of
the three vectors. -/
def slotsInside {α : Type} (m : fastObjMesh α) (b : MeshBuffers α) (j : Nat) : Prop :=
  (m.position_count > 1 → u32 (j * kComponentsInVertex) + kComponentsInVertex ≤ b.positions.length) ∧
  (m.normal_count > 1 → u32 (j * kComponentsInNormal) + kComponentsInNormal ≤ b.normals.length) ∧
  (m.texcoord_count > 1 →
    u32 (j * kComponentsInTexCoord) + kComponentsInTexCoord ≤ b.texCoords.length)

/-- Two buffer triples have the same three lengths. -/
def sameLengths {α : Type} (b c : MeshBuffers α) : Prop :=
  c.positions.length = b.positions.length ∧ c.normals.length = b.normals.length ∧
  c.texCoords.length = b.texCoords.length

/-! ## Observing the callbacks of `LoadMesh` -/

/-- One callback invocation made by `LoadMesh`. -/
inductive Callback (α : Type) where
  | onSuccess (b : MeshBuffers α)
  | onFailure (what : String)
deriving DecidableEq, Repr

/-- A completion handler that only records its invocation. -/
def recordSuccess {α : Type} (b : MeshBuffers α) (trace : List (Callback α)) :
    Exec (List (Callback α)) :=
  Exec.ok (trace ++ [Callback.onSuccess b])

/-- A failure handler that only records its invocation. -/
def recordFailure {α : Type} (what : String) (trace : List (Callback α)) :
    Exec (List (Callback α)) :=
  Exec.ok (trace ++ [Callback.onFailure what])

/-- The run of `LoadMesh` with the two recording handlers: the returned `bool`
and the callback invocations in order. -/
def LoadMeshTrace {α : Type} [Zero α] (resources : String → ParseResult α)
    (pathToMesh : String) : Exec (Bool × List (Callback α)) :=
  LoadMesh resources pathToMesh (some recordSuccess) (some recordFailure) []

/-- A resource the constructor can take: the lookup or the stream throws, or
the parser returns a well-formed mesh with indices in range, `3 * K` within 32
bits, more than one position entry and at least one face corner. -/
def Loadable {α : Type} (r : ParseResult α) : Prop :=
  match r with
  | ParseResult.raised _ => True
  | ParseResult.parsed none => False
  | ParseResult.parsed (some m) =>
    WellFormed m ∧ InRange m ∧ 3 * m.index_count < 2 ^ 32 ∧ m.position_count > 1 ∧
      m.index_count > 0

/-! ## Sample meshes -/

/-- A square made of two triangles: four position entries, six face corners,
and only the sentinel entry for normals and texture coordinates. -/
def sampleArrowMesh : fastObjMesh ℤ :=
  { position_count := 4
    positions := [0, 0, 0, 1, 0, 0, 1, 1, 0, 0, 1, 0]
    texcoord_count := 1
    texcoords := [0, 0]
    normal_count := 1
    normals := [0, 0, 0]
    index_count := 6
    indices := [⟨0, 0, 0⟩, ⟨1, 0, 0⟩, ⟨2, 0, 0⟩, ⟨0, 0, 0⟩, ⟨2, 0, 0⟩, ⟨3, 0, 0⟩] }

/-- The same square with texture coordinates, as a shadow mesh. -/
def sampleShadowMesh : fastObjMesh ℤ :=
  { position_count := 4
    positions := [0, 0, 0, 1, 0, 0, 1, 1, 0, 0, 1, 0]
    texcoord_count := 3
    texcoords := [0, 0, 5, 6, 7, 8]
    normal_count := 1
    normals := [0, 0, 0]
    index_count := 6
    indices := [⟨0, 1, 0⟩, ⟨1, 2, 0⟩, ⟨2, 1, 0⟩, ⟨0, 2, 0⟩, ⟨2, 1, 0⟩, ⟨3, 2, 0⟩] }

/-- A mesh with all three channels: two entries each, one triangle. -/
def sampleFullMesh : fastObjMesh ℤ :=
  { position_count := 2
    positions := [0, 0, 0, 1, 2, 3]
    texcoord_count := 2
    texcoords := [0, 0, 5, 6]
    normal_count := 2
    normals := [0, 0, 0, 7, 8, 9]
    index_count := 3
    indices := [⟨1, 1, 1⟩, ⟨0, 1, 1⟩, ⟨1, 0, 0⟩] }

/-- A mesh whose position channel holds only the sentinel entry, while normals
and texture coordinates have two entries each; one triangle. It is what the
parser returns for the three lines `vn 7 8 9`, `vt 5 6`, `f 1/1/1 1/1/1 1/1/1`. -/
def sentinelPositionsMesh : fastObjMesh ℤ :=
  { position_count := 1
    positions := [0, 0, 0]
    texcoord_count := 2
    texcoords := [0, 0, 5, 6]
    normal_count := 2
    normals := [0, 0, 0, 7, 8, 9]
    index_count := 3
    indices := [⟨1, 1, 1⟩, ⟨1, 1, 1⟩, ⟨1, 1, 1⟩] }

/-- The mesh of an empty file: only the three sentinel entries, no face. -/
def emptyFileMesh : fastObjMesh ℤ :=
  { position_count := 1
    positions := [0, 0, 0]
    texcoord_count := 1
    texcoords := [0, 0]
    normal_count := 1
    normals := [0, 0, 0]
    index_count := 0
    indices := [] }

/-- A mesh with four position entries and no face. -/
def noFaceMesh : fastObjMesh ℤ :=
  { position_count := 4
    positions := [0, 0, 0, 1, 0, 0, 1, 1, 0, 0, 1, 0]
    texcoord_count := 1
    texcoords := [0, 0]
    normal_count := 1
    normals := [0, 0, 0]
    index_count := 0
    indices := [] }

/-- Resources in which both mesh files parse: the arrow to the square without
normals, the shadow to the square with texture coordinates. -/
def sampleResources (pathToMesh : String) : ParseResult ℤ :=
  if pathToMesh = "arrow.obj" then ParseResult.parsed (some sampleArrowMesh)
  else ParseResult.parsed (some sampleShadowMesh)

/-- A stand-in for the normalized cross product on integer sample data: the
cross product of the two edge vectors, not normalized. -/
def sampleTriangleNormal (a b c : ℤ × ℤ × ℤ) : ℤ × ℤ × ℤ :=
  let u := (b.1 - a.1, b.2.1 - a.2.1, b.2.2 - a.2.2)
  let v := (c.1 - a.1, c.2.1 - a.2.1, c.2.2 - a.2.2)
  (u.2.1 * v.2.2 - u.2.2 * v.2.1, u.2.2 * v.1 - u.1 * v.2.2, u.1 * v.2.1 - u.2.1 * v.1)

/-! ## Sequences of setter calls -/

namespace Arrow3d

/-- One call of a setter of the marker, with its argument. -/
inductive Setter where
  | SetPosition (position : ℚ × ℚ)
  | SetAzimuth (azimuth : ℚ)
  | SetTexture (symbolsTexture : Nat)
  | SetPositionObsolete (obsolete : Bool)
  | SetMeshOffset (offset : glm.vec3)
  | SetMeshRotation (eulerAngles : glm.vec3)
  | SetMeshScale (scale : glm.vec3)
deriving DecidableEq, Repr

/-- The marker after one setter call. -/
def call {α : Type} (self : Arrow3d α) : Setter → Arrow3d α
  | Setter.SetPosition position => self.SetPosition position
  | Setter.SetAzimuth azimuth => self.SetAzimuth azimuth
  | Setter.SetTexture symbolsTexture => self.SetTexture symbolsTexture
  | Setter.SetPositionObsolete obsolete => self.SetPositionObsolete obsolete
  | Setter.SetMeshOffset offset => self.SetMeshOffset offset
  | Setter.SetMeshRotation eulerAngles => self.SetMeshRotation eulerAngles
  | Setter.SetMeshScale scale => self.SetMeshScale scale

/-- The marker after a sequence of setter calls, made in list order. -/
def callAll {α : Type} (self : Arrow3d α) (calls : List Setter) : Arrow3d α :=
  calls.foldl call self

/-- The argument of the last call that `pick` selects, or `initial` when the
sequence has no such call. -/
def lastArgument {β : Type} (pick : Setter → Option β) (calls : List Setter) (initial : β) : β :=
  (calls.reverse.findSome? pick).getD initial

end Arrow3d

namespace Arrow3d

/-- The argument of a `SetPosition` call. -/
def Setter.positionArgument : Setter → Option (ℚ × ℚ)
  | Setter.SetPosition position => some position
  | _ => none

/-- The argument of a `SetAzimuth` call. -/
def Setter.azimuthArgument : Setter → Option ℚ
  | Setter.SetAzimuth azimuth => some azimuth
  | _ => none

/-- The argument of a `SetPositionObsolete` call. -/
def Setter.obsoleteArgument : Setter → Option Bool
  | Setter.SetPositionObsolete obsolete => some obsolete
  | _ => none

/-- The argument of a `SetMeshOffset` call. -/
def Setter.offsetArgument : Setter → Option glm.vec3
  | Setter.SetMeshOffset offset => some offset
  | _ => none

/-- The argument of a `SetMeshRotation` call. -/
def Setter.rotationArgument : Setter → Option glm.vec3
  | Setter.SetMeshRotation eulerAngles => some eulerAngles
  | _ => none

/-- The argument of a `SetMeshScale` call. -/
def Setter.scaleArgument : Setter → Option glm.vec3
  | Setter.SetMeshScale scale => some scale
  | _ => none

/-- The colour texture a `SetTexture` call installs. -/
def Setter.textureArgument : Setter → Option (Option Nat)
  | Setter.SetTexture symbolsTexture => some (some symbolsTexture)
  | _ => none

end Arrow3d

/-! ## Sample views and markers -/

/-- Surroundings for the samples: visual scale 1, normalized zoom 0, and the
values of the cosine and the sine at angle 0, the only angle the samples use. -/
def sampleSurroundings : Surroundings :=
  { cos := fun _ => 1, sin := fun _ => 0, GetVisualScale := 1
    GetNormalizedZoomLevel := fun _ _ => 0 }

/-- A flat view of 200 by 100 pixels without rotation, whose forward transform
is the identity. -/
def sampleFlatScreen : ScreenBase :=
  { isPerspective := false, GetScale := 1, GetAngle := 0, PixelRectSizeX := 200
    PixelRectSizeY := 100, GetScale3d := 1, GtoP := id
    Pto3dMatrix := fun r c => if r = c then 1 else 0 }

/-- A marker at pixel (50, 25) with default placement. -/
def sampleMarker : Arrow3d ℤ :=
  (Arrow3d.initial : Arrow3d ℤ).SetPosition (50, 25)

/-- The sample marker after `SetMeshOffset` with a unit offset along z. -/
def sampleOffsetMarker : Arrow3d ℤ :=
  sampleMarker.SetMeshOffset (0, 0, 1)

/-! ## Draining the stream through the adapter -/

namespace fast_obj_adapter

/-- What a client that read the stream to its end has seen: the number of
`FileRead` calls it made, the counts they returned, the chunks they wrote to
`dst`, and the stream it left. -/
structure Drained where
  calls : Nat
  counts : List Nat
  chunks : List (List Byte)
  reader : ReaderSource
deriving DecidableEq, Repr

/-- A client that calls `FileRead` with the request sizes `request k`,
`request (k + 1)`, ... until a call returns 0. It may make `fuel` calls; `none`
says that they were used up before a call returned 0. -/
def drain (sizeBits : Nat) (request : Nat → Nat) :
    Nat → Nat → ReaderSource → Exec (Option Drained)
  | 0, _, _ => Exec.ok none
  | fuel + 1, k, reader =>
    (FileRead sizeBits (some reader) (request k)).bind fun r =>
      if r.1 = 0 then
        Exec.ok (some { calls := 1, counts := [r.1], chunks := [r.2.1], reader := r.2.2 })
      else
        (drain sizeBits request fuel (k + 1) r.2.2).bind fun rest =>
          Exec.ok (rest.map fun d =>
            { d with calls := d.calls + 1, counts := r.1 :: d.counts
                     chunks := r.2.1 :: d.chunks })

end fast_obj_adapter

/-- A parse whose second corner refers to position entry 9 where the mesh has 4
position entries: three corners over the positions of the sample square. -/
def outOfRangeMesh : fastObjMesh ℤ :=
  { position_count := 4
    positions := [0, 0, 0, 1, 0, 0, 1, 1, 0, 0, 1, 0]
    texcoord_count := 1
    texcoords := [0, 0]
    normal_count := 1
    normals := [0, 0, 0]
    index_count := 3
    indices := [⟨0, 0, 0⟩, ⟨9, 0, 0⟩, ⟨2, 0, 0⟩] }

/-! ## Lemmas on the flattening -/

theorem u32_of_lt {n : Nat} (h : n < 2 ^ 32) : u32 n = n := Nat.mod_eq_of_lt h

theorem tuple_length {α : Type} (c : Nat) (xs : List α) (k : Nat)
    (h : k * c + c ≤ xs.length) : (tuple c xs k).length = c := by
  unfold tuple
  rw [List.length_take, List.length_drop]
  omega

theorem gather_length {α : Type} (c count : Nat) (src : List α) (hsrc : src.length = c * count)
    (idxs : List Nat) (h : ∀ k ∈ idxs, k < count) : (gather c src idxs).length = c * idxs.length := by
  induction idxs with
  | nil => simp [gather]
  | cons k ks ih =>
    have hk : k < count := h k (List.mem_cons_self _ _)
    have hb : k * c + c ≤ src.length := by
      rw [hsrc]
      calc k * c + c = c * (k + 1) := by ring
        _ ≤ c * count := Nat.mul_le_mul_left c hk
    have ih2 := ih (fun j hj => h j (List.mem_cons_of_mem _ hj))
    unfold gather at ih2 ⊢
    rw [List.flatMap_cons, List.length_append, ih2, tuple_length c src k hb, List.length_cons]
    ring

theorem memcpy_slot {α : Type} (G R src : List α) (s n : Nat) (hR : n ≤ R.length)
    (hs : s + n ≤ src.length) :
    memcpy (G ++ R) G.length src s n = Exec.ok (G ++ (src.drop s).take n ++ R.drop n) := by
  unfold memcpy
  have hc : G.length + n ≤ (G ++ R).length ∧ s + n ≤ src.length := by
    rw [List.length_append]; omega
  rw [if_pos hc, List.take_left, List.drop_append]

theorem tuple_gather {α : Type} (c : Nat) (src : List α) (idxs : List Nat)
    (h : ∀ k ∈ idxs, (tuple c src k).length = c) (i k : Nat) (hi : idxs[i]? = some k) :
    tuple c (gather c src idxs) i = tuple c src k := by
  induction idxs generalizing i with
  | nil => simp at hi
  | cons q qs ih =>
    have hq := h q (List.mem_cons_self _ _)
    cases i with
    | zero =>
      have hqk : q = k := by simpa using hi
      subst hqk
      simp only [gather, List.flatMap_cons]
      show List.take c (List.drop (0 * c) _) = _
      rw [Nat.zero_mul, List.drop_zero, List.take_append_of_le_length (by omega),
        List.take_of_length_le (by omega)]
    | succ j =>
      have hj : qs[j]? = some k := by simpa using hi
      have := ih (fun r hr => h r (List.mem_cons_of_mem _ hr)) j hj
      simp only [gather, List.flatMap_cons] at this ⊢
      rw [← this]
      show List.take c (List.drop ((j + 1) * c) _) = List.take c (List.drop (j * c) _)
      have e : (j + 1) * c = (tuple c src q).length + j * c := by rw [hq]; ring
      rw [e, List.drop_append]

theorem gather_append {α : Type} (c : Nat) (src : List α) (xs ys : List Nat) :
    gather c src (xs ++ ys) = gather c src xs ++ gather c src ys := by
  simp [gather, List.flatMap_append]

theorem copyCorner_slot {α : Type} [Zero α] (count c : Nat) (src : List α) (idxs : List Nat)
    (hsrc : src.length = c * count) (hin : count > 1 → ∀ k ∈ idxs, k < count)
    (hK : count > 1 → c * idxs.length < 2 ^ 32) (hC : c * count < 2 ^ 32) (i : Nat)
    (hi : i < idxs.length) :
    copyCorner count c (slotState count c src idxs i) i src idxs[i]? =
      Exec.ok (slotState count c src idxs (i + 1)) := by
  by_cases hcount : count > 1
  · have hall := hin hcount
    have hK := hK hcount
    have hk : idxs[i] < count := hall _ (List.getElem_mem _)
    have hG : (gather c src (idxs.take i)).length = i * c := by
      rw [gather_length c count src hsrc _ (fun k hk => hall k (List.mem_of_mem_take hk)),
        List.length_take, Nat.min_eq_left (Nat.le_of_lt hi), Nat.mul_comm]
    have hic : i * c < 2 ^ 32 := by
      have : i * c ≤ c * idxs.length := by
        rw [Nat.mul_comm]; exact Nat.mul_le_mul_left c (Nat.le_of_lt hi)
      omega
    have hkc : idxs[i] * c + c ≤ c * count := by
      calc idxs[i] * c + c = c * (idxs[i] + 1) := by ring
        _ ≤ c * count := Nat.mul_le_mul_left c hk
    have hkc2 : idxs[i] * c < 2 ^ 32 := by omega
    have hR : c ≤ (List.replicate (c * (idxs.length - i)) (0 : α)).length := by
      rw [List.length_replicate]
      calc c = c * 1 := (Nat.mul_one c).symm
        _ ≤ c * (idxs.length - i) := Nat.mul_le_mul_left c (by omega)
    have hdrop : (List.replicate (c * (idxs.length - i)) (0 : α)).drop c =
        List.replicate (c * (idxs.length - (i + 1))) 0 := by
      rw [List.drop_replicate]
      congr 1
      have : idxs.length - i = (idxs.length - (i + 1)) + 1 := by omega
      rw [this, Nat.mul_add, Nat.mul_one, Nat.add_sub_cancel]
    have htake : idxs.take (i + 1) = idxs.take i ++ [idxs[i]] := by
      rw [List.take_succ, List.getElem?_eq_getElem hi]; rfl
    simp only [copyCorner, slotState, if_pos hcount, List.getElem?_eq_getElem hi]
    rw [u32_of_lt hic, u32_of_lt hkc2, ← hG, memcpy_slot _ _ _ _ _ hR (by rw [hsrc]; exact hkc),
      hdrop, htake, gather_append]
    have : gather c src [idxs[i]] = tuple c src idxs[i] := by simp [gather]
    rw [this]; rfl
  · simp [copyCorner, slotState, hcount]


theorem fillCorner_state {α : Type} [Zero α] (m : fastObjMesh α) (hwf : WellFormed m)
    (hin : InRange m) (hP : m.position_count > 1 → 3 * m.index_count < 2 ^ 32)
    (hN : m.normal_count > 1 → 3 * m.index_count < 2 ^ 32)
    (hT : m.texcoord_count > 1 → 2 * m.index_count < 2 ^ 32) (i : Nat) (hi : i < m.index_count) :
    fillCorner m i (loopState m i) = Exec.ok (loopState m (i + 1)) := by
  have hK := hwf.indices_size
  have hinP : m.position_count > 1 → ∀ k ∈ m.indices.map fastObjIndex.p, k < m.position_count := by
    intro hc k hk
    obtain ⟨ix, hix, rfl⟩ := List.mem_map.mp hk
    exact (hin ix hix).1 hc
  have hinN : m.normal_count > 1 → ∀ k ∈ m.indices.map fastObjIndex.n, k < m.normal_count := by
    intro hc k hk
    obtain ⟨ix, hix, rfl⟩ := List.mem_map.mp hk
    exact (hin ix hix).2.1 hc
  have hinT : m.texcoord_count > 1 → ∀ k ∈ m.indices.map fastObjIndex.t, k < m.texcoord_count := by
    intro hc k hk
    obtain ⟨ix, hix, rfl⟩ := List.mem_map.mp hk
    exact (hin ix hix).2.2 hc
  have sP := copyCorner_slot m.position_count kComponentsInVertex m.positions
    (m.indices.map fastObjIndex.p) hwf.positions_size hinP
    (by simpa only [kComponentsInVertex, List.length_map, hK] using hP)
    (by have := hwf.positions_size; have := hwf.positions_u32
        simp only [kComponentsInVertex]; omega)
    i (by simp only [List.length_map]; omega)
  have sN := copyCorner_slot m.normal_count kComponentsInNormal m.normals
    (m.indices.map fastObjIndex.n) hwf.normals_size hinN
    (by simpa only [kComponentsInNormal, List.length_map, hK] using hN)
    (by have := hwf.normals_size; have := hwf.normals_u32
        simp only [kComponentsInNormal]; omega)
    i (by simp only [List.length_map]; omega)
  have sT := copyCorner_slot m.texcoord_count kComponentsInTexCoord m.texcoords
    (m.indices.map fastObjIndex.t) hwf.texcoords_size hinT
    (by simpa only [kComponentsInTexCoord, List.length_map, hK] using hT)
    (by have := hwf.texcoords_size; have := hwf.texcoords_u32
        simp only [kComponentsInTexCoord]; omega)
    i (by simp only [List.length_map]; omega)
  rw [List.getElem?_map] at sP sN sT
  simp only [fillCorner, loopState, sP, sN, sT, Exec.bind]

theorem fillLoop_state {α : Type} [Zero α] (m : fastObjMesh α) (hwf : WellFormed m)
    (hin : InRange m) (hP : m.position_count > 1 → 3 * m.index_count < 2 ^ 32)
    (hN : m.normal_count > 1 → 3 * m.index_count < 2 ^ 32)
    (hT : m.texcoord_count > 1 → 2 * m.index_count < 2 ^ 32) (remaining i : Nat)
    (h : i + remaining ≤ m.index_count) :
    fillLoop m remaining i (loopState m i) = Exec.ok (loopState m (i + remaining)) := by
  induction remaining generalizing i with
  | zero => rfl
  | succ r ih =>
    rw [fillLoop, fillCorner_state m hwf hin hP hN hT i (by omega)]
    simp only [Exec.bind]
    rw [ih (i + 1) (by omega)]
    congr 2
    omega

theorem slotState_zero {α : Type} [Zero α] (count c K : Nat) (src : List α) (idxs : List Nat)
    (hlen : idxs.length = K) (hK : count > 1 → c * K < 2 ^ 32) :
    slotState count c src idxs 0 = resizeChannel count K c := by
  by_cases hc : count > 1
  · simp only [slotState, resizeChannel, List.take_zero, gather, List.flatMap_nil,
      List.nil_append, Nat.sub_zero, hlen, if_pos hc]
    rw [Nat.mul_comm K c, u32_of_lt (hK hc)]
  · simp [slotState, resizeChannel, hc]

theorem slotState_length {α : Type} [Zero α] (count c : Nat) (src : List α) (idxs : List Nat) :
    slotState count c src idxs idxs.length = flatChannel count c src idxs := by
  simp [slotState, flatChannel]

/-- On a well-formed mesh whose indices are in range and whose slot offsets do
not wrap, the loop of `LoadMesh` computes the buffers of the specification. -/
theorem fillBuffers_eq_flatten_of {α : Type} [Zero α] (m : fastObjMesh α) (hwf : WellFormed m)
    (hin : InRange m) (hP : m.position_count > 1 → 3 * m.index_count < 2 ^ 32)
    (hN : m.normal_count > 1 → 3 * m.index_count < 2 ^ 32)
    (hT : m.texcoord_count > 1 → 2 * m.index_count < 2 ^ 32) :
    fillBuffers m = Exec.ok (flatten m) := by
  have hlen := hwf.indices_size
  have h0 : loopState m 0 =
      { positions := resizeChannel m.position_count m.index_count kComponentsInVertex
        normals := resizeChannel m.normal_count m.index_count kComponentsInNormal
        texCoords := resizeChannel m.texcoord_count m.index_count kComponentsInTexCoord } := by
    simp only [loopState]
    rw [slotState_zero _ _ m.index_count _ _ (by simpa using hlen)
        (by simpa only [kComponentsInVertex] using hP),
      slotState_zero _ _ m.index_count _ _ (by simpa using hlen)
        (by simpa only [kComponentsInNormal] using hN),
      slotState_zero _ _ m.index_count _ _ (by simpa using hlen)
        (by simpa only [kComponentsInTexCoord] using hT)]
  have hK : loopState m m.index_count = flatten m := by
    simp only [loopState, flatten]
    have e1 : m.index_count = (m.indices.map fastObjIndex.p).length := by simpa using hlen.symm
    have e2 : m.index_count = (m.indices.map fastObjIndex.n).length := by simpa using hlen.symm
    have e3 : m.index_count = (m.indices.map fastObjIndex.t).length := by simpa using hlen.symm
    congr 1
    · rw [e1]; exact slotState_length _ _ _ _
    · rw [e2]; exact slotState_length _ _ _ _
    · rw [e3]; exact slotState_length _ _ _ _
  have := fillLoop_state m hwf hin hP hN hT m.index_count 0 (by omega)
  rw [Nat.zero_add, hK, h0] at this
  exact this

theorem fillBuffers_eq_flatten {α : Type} [Zero α] (m : fastObjMesh α) (hwf : WellFormed m)
    (hin : InRange m) (hfit : 3 * m.index_count < 2 ^ 32) :
    fillBuffers m = Exec.ok (flatten m) :=
  fillBuffers_eq_flatten_of m hwf hin (fun _ => hfit) (fun _ => hfit) (fun _ => by omega)

/-! ## What a completed run of the loop implies -/

theorem Exec.bind_eq_ok {σ τ : Type} {x : Exec σ} {f : σ → Exec τ} {r : τ}
    (h : x.bind f = Exec.ok r) : ∃ v, x = Exec.ok v ∧ f v = Exec.ok r := by
  cases x with
  | ok v => exact ⟨v, rfl, h⟩
  | checkFailed => simp [Exec.bind] at h
  | raised what => simp [Exec.bind] at h
  | undefinedBehaviour => simp [Exec.bind] at h

theorem memcpy_ok {α : Type} {dst src r : List α} {d s n : Nat}
    (h : memcpy dst d src s n = Exec.ok r) : d + n ≤ dst.length ∧ r.length = dst.length := by
  unfold memcpy at h
  split at h
  · rename_i hc
    have hr : r = dst.take d ++ (src.drop s).take n ++ dst.drop (d + n) := by
      injection h with h; exact h.symm
    refine ⟨hc.1, ?_⟩
    rw [hr]
    simp only [List.length_append, List.length_take, List.length_drop]
    omega
  · simp at h

theorem copyCorner_ok {α : Type} {count c i : Nat} {dst src r : List α} {idx : Option Nat}
    (h : copyCorner count c dst i src idx = Exec.ok r) :
    r.length = dst.length ∧ (count > 1 → u32 (i * c) + c ≤ dst.length) := by
  unfold copyCorner at h
  by_cases hc : count > 1
  · rw [if_pos hc] at h
    cases idx with
    | none => simp at h
    | some k =>
      have := memcpy_ok h
      exact ⟨this.2, fun _ => this.1⟩
  · rw [if_neg hc] at h
    injection h with h
    exact ⟨by rw [h], fun h1 => absurd h1 hc⟩

theorem fillCorner_ok {α : Type} {m : fastObjMesh α} {i : Nat} {b r : MeshBuffers α}
    (h : fillCorner m i b = Exec.ok r) : sameLengths b r ∧ slotsInside m b i := by
  unfold fillCorner at h
  obtain ⟨ps, hps, h⟩ := Exec.bind_eq_ok h
  obtain ⟨ns, hns, h⟩ := Exec.bind_eq_ok h
  obtain ⟨ts, hts, h⟩ := Exec.bind_eq_ok h
  injection h with h
  subst h
  have a := copyCorner_ok hps
  have b := copyCorner_ok hns
  have c := copyCorner_ok hts
  exact ⟨⟨a.1, b.1, c.1⟩, a.2, b.2, c.2⟩

theorem fillLoop_ok {α : Type} {m : fastObjMesh α} (remaining : Nat) {i : Nat}
    {b r : MeshBuffers α} (h : fillLoop m remaining i b = Exec.ok r) :
    sameLengths b r ∧ ∀ j, i ≤ j → j < i + remaining → slotsInside m b j := by
  induction remaining generalizing i b with
  | zero =>
    simp only [fillLoop] at h
    injection h with h
    subst h
    exact ⟨⟨rfl, rfl, rfl⟩, fun j h1 h2 => by omega⟩
  | succ n ih =>
    rw [fillLoop] at h
    obtain ⟨b1, hb1, h⟩ := Exec.bind_eq_ok h
    have s1 := fillCorner_ok hb1
    have s2 := ih h
    refine ⟨⟨s2.1.1.trans s1.1.1, s2.1.2.1.trans s1.1.2.1, s2.1.2.2.trans s1.1.2.2⟩, ?_⟩
    intro j h1 h2
    by_cases hj : j = i
    · subst hj; exact s1.2
    · have := s2.2 j (by omega) (by omega)
      unfold slotsInside at this ⊢
      rw [s1.1.1, s1.1.2.1, s1.1.2.2] at this
      exact this

/-- The modulus of `unsigned int` arithmetic as a numeral. -/
theorem two_pow_32 : (2 : Nat) ^ 32 = 4294967296 := by norm_num
/-- No multiple of 3 below `3 * 2 ^ 32` that wrapped leaves the remainder
`2 ^ 32 - 1`. -/
theorem wrap_remainder_three (K q r : Nat) (hK : K < 4294967296) (hcon : 4294967296 ≤ 3 * K)
    (hd : 4294967296 * q + r = K * 3) (hm : r < 4294967296)
    (h1 : 4294967295 ≤ r) : False := by
  have hr : r = 4294967295 := by clear hd hK hcon; omega
  subst hr
  have hq : q < 3 := by
    by_contra hq
    have h3 : 4294967296 * 3 ≤ 4294967296 * q := Nat.mul_le_mul_left _ (by clear hd hcon; omega)
    have h4 : K * 3 < 4294967296 * 3 := by clear hd h3 hcon; omega
    have h5 : 4294967296 * q ≤ K * 3 := by rw [← hd]; exact Nat.le_add_right _ _
    exact absurd (Nat.lt_of_le_of_lt (Nat.le_trans h3 h5) h4) (Nat.lt_irrefl _)
  have h3 : (4294967296 * q + 4294967295) % 3 = 0 := by rw [hd]; exact Nat.mul_mod_left K 3
  interval_cases q
  · clear h3 hK; omega
  · simp at h3
  · simp at h3
theorem u32_lt (n : Nat) : u32 n < 4294967296 := by
  unfold u32; rw [two_pow_32]; exact Nat.mod_lt _ (by norm_num)
theorem u32_div (n : Nat) : 4294967296 * (n / 4294967296) + u32 n = n := by
  unfold u32; rw [two_pow_32]; exact Nat.div_add_mod n 4294967296
theorem no_wrap_three {K : Nat} (hK : K < 2 ^ 32)
    (h : ∀ j, j < K → u32 (j * 3) + 3 ≤ u32 (K * 3)) : 3 * K < 2 ^ 32 := by
  rw [two_pow_32] at hK ⊢
  by_contra hcon
  have hj : 1431655764 < K := by omega
  have h1 := h 1431655764 hj
  have e : u32 (1431655764 * 3) = 4294967292 := by norm_num [u32]
  rw [e] at h1
  exact wrap_remainder_three K _ _ hK (by omega) (u32_div (K * 3)) (u32_lt _) h1
theorem no_wrap_two {K : Nat} (hK : K < 2 ^ 32)
    (h : ∀ j, j < K → u32 (j * 2) + 2 ≤ u32 (K * 2)) : 2 * K < 2 ^ 32 := by
  rw [two_pow_32] at hK ⊢
  by_contra hcon
  have hj : 2147483647 < K := by omega
  have h1 := h 2147483647 hj
  have e : u32 (2147483647 * 2) = 4294967294 := by norm_num [u32]
  rw [e] at h1
  have := u32_lt (K * 2)
  omega

theorem resizeChannel_length {α : Type} [Zero α] (count K c : Nat) (hc : count > 1) :
    (resizeChannel count K c : List α).length = u32 (K * c) := by
  simp [resizeChannel, hc]

/-- A completed run of the loop never wrapped a slot offset of a channel that
is present. -/
theorem fillBuffers_ok_no_wrap {α : Type} [Zero α] {m : fastObjMesh α} {b : MeshBuffers α}
    (hK : m.index_count < 2 ^ 32) (h : fillBuffers m = Exec.ok b) :
    (m.position_count > 1 → 3 * m.index_count < 2 ^ 32) ∧
    (m.normal_count > 1 → 3 * m.index_count < 2 ^ 32) ∧
    (m.texcoord_count > 1 → 2 * m.index_count < 2 ^ 32) := by
  unfold fillBuffers at h
  have hb := (fillLoop_ok _ h).2
  refine ⟨fun hc => no_wrap_three hK fun j hj => ?_, fun hc => no_wrap_three hK fun j hj => ?_,
    fun hc => no_wrap_two hK fun j hj => ?_⟩
  · have := (hb j (Nat.zero_le _) (by omega)).1 hc
    simpa only [resizeChannel_length _ _ _ hc, kComponentsInVertex] using this
  · have := (hb j (Nat.zero_le _) (by omega)).2.1 hc
    simpa only [resizeChannel_length _ _ _ hc, kComponentsInNormal] using this
  · have := (hb j (Nat.zero_le _) (by omega)).2.2 hc
    simpa only [resizeChannel_length _ _ _ hc, kComponentsInTexCoord] using this

/-- Whatever the loop of `LoadMesh` hands over for a well-formed mesh with
indices in range is the triple of buffers of the specification. -/
theorem fillBuffers_ok_eq_flatten {α : Type} [Zero α] {m : fastObjMesh α} {b : MeshBuffers α}
    (hwf : WellFormed m) (hin : InRange m) (h : fillBuffers m = Exec.ok b) : b = flatten m := by
  obtain ⟨hP, hN, hT⟩ := fillBuffers_ok_no_wrap hwf.indices_u32 h
  have := fillBuffers_eq_flatten_of m hwf hin hP hN hT
  rw [h] at this
  injection this

/-! ## Lemmas on `LoadMesh` -/

theorem Exec.okOrOutside_bind {σ τ : Type} {x : Exec σ} {f : σ → Exec τ}
    (hx : x.okOrOutside) (hf : ∀ v, (f v).okOrOutside) : (x.bind f).okOrOutside := by
  cases x with
  | ok v => exact hf v
  | checkFailed => exact hx
  | raised what => exact hx
  | undefinedBehaviour => trivial

theorem copyCorner_okOrOutside {α : Type} (count c : Nat) (dst : List α) (i : Nat)
    (src : List α) (idx : Option Nat) : (copyCorner count c dst i src idx).okOrOutside := by
  unfold copyCorner memcpy
  split
  · cases idx with
    | none => trivial
    | some k =>
      simp only
      split <;> trivial
  · trivial

theorem fillCorner_okOrOutside {α : Type} (m : fastObjMesh α) (i : Nat) (b : MeshBuffers α) :
    (fillCorner m i b).okOrOutside := by
  unfold fillCorner
  refine Exec.okOrOutside_bind (copyCorner_okOrOutside _ _ _ _ _ _) fun _ => ?_
  refine Exec.okOrOutside_bind (copyCorner_okOrOutside _ _ _ _ _ _) fun _ => ?_
  exact Exec.okOrOutside_bind (copyCorner_okOrOutside _ _ _ _ _ _) fun _ => trivial

theorem fillLoop_okOrOutside {α : Type} (m : fastObjMesh α) (remaining i : Nat)
    (b : MeshBuffers α) : (fillLoop m remaining i b).okOrOutside := by
  induction remaining generalizing i b with
  | zero => trivial
  | succ n ih =>
    rw [fillLoop]
    exact Exec.okOrOutside_bind (fillCorner_okOrOutside m i b) fun v => ih (i + 1) v

theorem fillBuffers_okOrOutside {α : Type} [Zero α] (m : fastObjMesh α) :
    (fillBuffers m).okOrOutside :=
  fillLoop_okOrOutside m _ _ _

/-- With callbacks that do not throw and trip no `CHECK`, a thrown
`RootException` leads to one call of the failure handler. -/
theorem LoadMesh_of_raised {α σ : Type} [Zero α] (resources : String → ParseResult α)
    (pathToMesh : String) (onSuccess : MeshBuffers α → σ → σ) (onFailure : String → σ → σ)
    (s : σ) (what : String) (hres : resources pathToMesh = ParseResult.raised what) :
    LoadMesh resources pathToMesh (some fun b s => Exec.ok (onSuccess b s))
      (some fun what s => Exec.ok (onFailure what s)) s = Exec.ok (false, onFailure what s) := by
  simp only [LoadMesh, hres, Exec.bind]

/-- With callbacks that do not throw and trip no `CHECK`, a parsed mesh leads
to the flattening followed by one call of the completion handler. -/
theorem LoadMesh_of_parsed {α σ : Type} [Zero α] (resources : String → ParseResult α)
    (pathToMesh : String) (onSuccess : MeshBuffers α → σ → σ) (onFailure : String → σ → σ)
    (s : σ) (m : fastObjMesh α) (hres : resources pathToMesh = ParseResult.parsed (some m)) :
    LoadMesh resources pathToMesh (some fun b s => Exec.ok (onSuccess b s))
      (some fun what s => Exec.ok (onFailure what s)) s =
      (fillBuffers m).bind fun b => Exec.ok (true, onSuccess b s) := by
  have h := fillBuffers_okOrOutside m
  simp only [LoadMesh, hres]
  cases hf : fillBuffers m with
  | ok b => simp only [Exec.bind]
  | checkFailed => rw [hf] at h; exact absurd h (by simp [Exec.okOrOutside])
  | raised what => rw [hf] at h; exact absurd h (by simp [Exec.okOrOutside])
  | undefinedBehaviour => simp only [Exec.bind]

theorem LoadMeshTrace_of_raised {α : Type} [Zero α] (resources : String → ParseResult α)
    (pathToMesh : String) (what : String) (hres : resources pathToMesh = ParseResult.raised what) :
    LoadMeshTrace resources pathToMesh = Exec.ok (false, [Callback.onFailure what]) :=
  LoadMesh_of_raised resources pathToMesh (fun b t => t ++ [Callback.onSuccess b])
    (fun what t => t ++ [Callback.onFailure what]) [] what hres

theorem LoadMeshTrace_of_parsed {α : Type} [Zero α] (resources : String → ParseResult α)
    (pathToMesh : String) (m : fastObjMesh α)
    (hres : resources pathToMesh = ParseResult.parsed (some m)) :
    LoadMeshTrace resources pathToMesh =
      (fillBuffers m).bind fun b => Exec.ok (true, [Callback.onSuccess b]) :=
  LoadMesh_of_parsed resources pathToMesh (fun b t => t ++ [Callback.onSuccess b])
    (fun what t => t ++ [Callback.onFailure what]) [] m hres

/-- The buffers a recorded run hands to the completion handler are those the
loop computed. -/
theorem fillBuffers_of_trace {α : Type} [Zero α] {resources : String → ParseResult α}
    {pathToMesh : String} {m : fastObjMesh α}
    (hres : resources pathToMesh = ParseResult.parsed (some m)) {r : Bool}
    {trace : List (Callback α)} {b : MeshBuffers α}
    (hrun : LoadMeshTrace resources pathToMesh = Exec.ok (r, trace))
    (hb : Callback.onSuccess b ∈ trace) : fillBuffers m = Exec.ok b := by
  rw [LoadMeshTrace_of_parsed resources pathToMesh m hres] at hrun
  obtain ⟨b1, hb1, h⟩ := Exec.bind_eq_ok hrun
  injection h with h
  injection h with _ ht
  subst ht
  have : b = b1 := by simpa using hb
  rw [this]
  exact hb1

theorem LoadMeshTrace_eq_flatten {α : Type} [Zero α] (resources : String → ParseResult α)
    (pathToMesh : String) (m : fastObjMesh α)
    (hres : resources pathToMesh = ParseResult.parsed (some m)) (hwf : WellFormed m)
    (hin : InRange m) (hfit : 3 * m.index_count < 2 ^ 32) :
    LoadMeshTrace resources pathToMesh = Exec.ok (true, [Callback.onSuccess (flatten m)]) := by
  rw [LoadMeshTrace_of_parsed resources pathToMesh m hres, fillBuffers_eq_flatten m hwf hin hfit]
  rfl

theorem flatChannel_tuple {α : Type} (count c : Nat) (src : List α) (idxs : List Nat)
    (hsrc : src.length = c * count) (hcount : count > 1) (hin : ∀ k ∈ idxs, k < count)
    (i k : Nat) (hi : idxs[i]? = some k) :
    tuple c (flatChannel count c src idxs) i = tuple c src k ∧ (tuple c src k).length = c := by
  have hlen : ∀ q ∈ idxs, (tuple c src q).length = c := by
    intro q hq
    apply tuple_length
    rw [hsrc]
    calc q * c + c = c * (q + 1) := by ring
      _ ≤ c * count := Nat.mul_le_mul_left c (hin q hq)
  rw [flatChannel, if_pos hcount]
  exact ⟨tuple_gather c src idxs hlen i k hi, hlen k (List.getElem?_mem hi)⟩

theorem sampleArrowMesh_wellFormed : WellFormed sampleArrowMesh :=
  ⟨by decide, by decide, by decide, by decide, by decide, by decide, by decide, by decide⟩

theorem sampleShadowMesh_wellFormed : WellFormed sampleShadowMesh :=
  ⟨by decide, by decide, by decide, by decide, by decide, by decide, by decide, by decide⟩

theorem sampleFullMesh_wellFormed : WellFormed sampleFullMesh :=
  ⟨by decide, by decide, by decide, by decide, by decide, by decide, by decide, by decide⟩

theorem sentinelPositionsMesh_wellFormed : WellFormed sentinelPositionsMesh :=
  ⟨by decide, by decide, by decide, by decide, by decide, by decide, by decide, by decide⟩

/-! ## Flattening -/

/-- C1: for a parsed mesh whose indices are in range, every sequence `LoadMesh`
hands to `onSuccess` satisfies, for each channel with more than one source
entry and every face corner `i`: tuple `i` of the flattened channel (3 floats
for positions and normals, 2 for texture coordinates) is the source entry that
corner `i` refers to, whatever the other channels are. When `3 * K` fits in 32
bits the run does hand the sequences over. -/
theorem LoadMesh_flattened_entries {α : Type} [Zero α] (resources : String → ParseResult α)
    (pathToMesh : String) (m : fastObjMesh α)
    (hres : resources pathToMesh = ParseResult.parsed (some m)) (hwf : WellFormed m)
    (hin : InRange m) :
    (∀ r trace b, LoadMeshTrace resources pathToMesh = Exec.ok (r, trace) →
      Callback.onSuccess b ∈ trace → ∀ i ix, m.indices[i]? = some ix →
        (m.position_count > 1 →
          tuple kComponentsInVertex b.positions i = tuple kComponentsInVertex m.positions ix.p ∧
          (tuple kComponentsInVertex m.positions ix.p).length = 3) ∧
        (m.normal_count > 1 →
          tuple kComponentsInNormal b.normals i = tuple kComponentsInNormal m.normals ix.n ∧
          (tuple kComponentsInNormal m.normals ix.n).length = 3) ∧
        (m.texcoord_count > 1 →
          tuple kComponentsInTexCoord b.texCoords i =
            tuple kComponentsInTexCoord m.texcoords ix.t ∧
          (tuple kComponentsInTexCoord m.texcoords ix.t).length = 2)) ∧
    (3 * m.index_count < 2 ^ 32 →
      ∃ b, LoadMeshTrace resources pathToMesh = Exec.ok (true, [Callback.onSuccess b])) := by
  refine ⟨?_, fun hfit => ⟨_, LoadMeshTrace_eq_flatten resources pathToMesh m hres hwf hin hfit⟩⟩
  intro r trace b hrun hb i ix hi
  have hfb := fillBuffers_ok_eq_flatten hwf hin (fillBuffers_of_trace hres hrun hb)
  subst hfb
  refine ⟨fun hc => ?_, fun hc => ?_, fun hc => ?_⟩
  · exact flatChannel_tuple _ _ _ _ hwf.positions_size hc
      (fun k hk => by
        obtain ⟨jx, hjx, rfl⟩ := List.mem_map.mp hk
        exact (hin jx hjx).1 hc) i ix.p (by rw [List.getElem?_map, hi]; rfl)
  · exact flatChannel_tuple _ _ _ _ hwf.normals_size hc
      (fun k hk => by
        obtain ⟨jx, hjx, rfl⟩ := List.mem_map.mp hk
        exact (hin jx hjx).2.1 hc) i ix.n (by rw [List.getElem?_map, hi]; rfl)
  · exact flatChannel_tuple _ _ _ _ hwf.texcoords_size hc
      (fun k hk => by
        obtain ⟨jx, hjx, rfl⟩ := List.mem_map.mp hk
        exact (hin jx hjx).2.2 hc) i ix.t (by rw [List.getElem?_map, hi]; rfl)

/-- C1 at the sample mesh with all three channels: the run hands over buffers
whose tuples at corner 2 are position entry 1, normal entry 0 and texture
coordinate entry 0. -/
theorem LoadMesh_flattened_entries_witness :
    WellFormed sampleFullMesh ∧ InRange sampleFullMesh ∧
    ∃ b, LoadMeshTrace (fun _ => ParseResult.parsed (some sampleFullMesh)) "arrow.obj" =
        Exec.ok (true, [Callback.onSuccess b]) ∧
      tuple 3 b.positions 2 = [1, 2, 3] ∧ tuple 3 b.normals 2 = [0, 0, 0] ∧
      tuple 2 b.texCoords 2 = [0, 0] := by
  have h := LoadMesh_flattened_entries (fun _ => ParseResult.parsed (some sampleFullMesh))
    "arrow.obj" sampleFullMesh rfl sampleFullMesh_wellFormed (by decide)
  refine ⟨sampleFullMesh_wellFormed, by decide, ?_⟩
  obtain ⟨b, hb⟩ := h.2 (by decide)
  have ht := h.1 true _ b hb (List.mem_singleton_self _) 2 ⟨1, 0, 0⟩ rfl
  exact ⟨b, hb, (ht.1 (by decide)).1, (ht.2.1 (by decide)).1, (ht.2.2 (by decide)).1⟩

theorem fillBuffers_ok_lengths {α : Type} [Zero α] {m : fastObjMesh α} {b : MeshBuffers α}
    (hK : m.index_count < 2 ^ 32) (h : fillBuffers m = Exec.ok b) :
    b.positions.length = (if m.position_count > 1 then 3 * m.index_count else 0) ∧
    b.normals.length = (if m.normal_count > 1 then 3 * m.index_count else 0) ∧
    b.texCoords.length = (if m.texcoord_count > 1 then 2 * m.index_count else 0) := by
  obtain ⟨hP, hN, hT⟩ := fillBuffers_ok_no_wrap hK h
  unfold fillBuffers at h
  obtain ⟨⟨lp, ln, lt⟩, -⟩ := fillLoop_ok _ h
  simp only at lp ln lt
  refine ⟨?_, ?_, ?_⟩
  · rw [lp]
    by_cases hc : m.position_count > 1
    · rw [if_pos hc, resizeChannel_length _ _ _ hc, kComponentsInVertex, Nat.mul_comm,
        u32_of_lt (hP hc)]
    · simp [resizeChannel, hc]
  · rw [ln]
    by_cases hc : m.normal_count > 1
    · rw [if_pos hc, resizeChannel_length _ _ _ hc, kComponentsInNormal, Nat.mul_comm,
        u32_of_lt (hN hc)]
    · simp [resizeChannel, hc]
  · rw [lt]
    by_cases hc : m.texcoord_count > 1
    · rw [if_pos hc, resizeChannel_length _ _ _ hc, kComponentsInTexCoord, Nat.mul_comm,
        u32_of_lt (hT hc)]
    · simp [resizeChannel, hc]

/-- C2 (as stated, refuted): a parsed mesh with two normal entries, two
texture coordinate entries and three face corners, whose position channel
holds only the sentinel entry. `LoadMesh` hands an empty position sequence to
`onSuccess`, not one of length `3 * 3`. -/
theorem LoadMesh_lengths_without_positions :
    WellFormed sentinelPositionsMesh ∧ InRange sentinelPositionsMesh ∧
    sentinelPositionsMesh.normal_count > 1 ∧ sentinelPositionsMesh.texcoord_count > 1 ∧
    LoadMeshTrace (fun _ => ParseResult.parsed (some sentinelPositionsMesh)) "arrow.obj" =
      Exec.ok (true, [Callback.onSuccess
        ({ positions := [], normals := [7, 8, 9, 7, 8, 9, 7, 8, 9],
           texCoords := [5, 6, 5, 6, 5, 6] } : MeshBuffers ℤ)]) ∧
    ([] : List ℤ).length ≠ 3 * sentinelPositionsMesh.index_count := by
  refine ⟨sentinelPositionsMesh_wellFormed, by decide, by decide, by decide, ?_, by decide⟩
  rfl

/-- C2 (amended): for a parsed mesh with K face corners and more than one
position, normal and texture coordinate entry, the positions, normals and
texture coordinates `LoadMesh` hands to `onSuccess` have exactly `3 * K`,
`3 * K` and `2 * K` floats. When the indices are in range and `3 * K` fits in
32 bits the run does hand them over. -/
theorem LoadMesh_flattened_lengths {α : Type} [Zero α] (resources : String → ParseResult α)
    (pathToMesh : String) (m : fastObjMesh α)
    (hres : resources pathToMesh = ParseResult.parsed (some m)) (hwf : WellFormed m)
    (hP : m.position_count > 1) (hN : m.normal_count > 1) (hT : m.texcoord_count > 1) :
    (∀ r trace b, LoadMeshTrace resources pathToMesh = Exec.ok (r, trace) →
      Callback.onSuccess b ∈ trace →
        b.positions.length = 3 * m.index_count ∧ b.normals.length = 3 * m.index_count ∧
        b.texCoords.length = 2 * m.index_count) ∧
    (InRange m → 3 * m.index_count < 2 ^ 32 →
      ∃ b, LoadMeshTrace resources pathToMesh = Exec.ok (true, [Callback.onSuccess b])) := by
  refine ⟨?_, fun hin hfit =>
    ⟨_, LoadMeshTrace_eq_flatten resources pathToMesh m hres hwf hin hfit⟩⟩
  intro r trace b hrun hb
  have h := fillBuffers_ok_lengths hwf.indices_u32 (fillBuffers_of_trace hres hrun hb)
  rw [if_pos hP, if_pos hN, if_pos hT] at h
  exact h

/-- C2 (amended) at the sample mesh with all three channels and three face
corners: the run hands over 9, 9 and 6 floats. -/
theorem LoadMesh_flattened_lengths_witness :
    WellFormed sampleFullMesh ∧ sampleFullMesh.position_count > 1 ∧
    sampleFullMesh.normal_count > 1 ∧ sampleFullMesh.texcoord_count > 1 ∧
    ∃ b, LoadMeshTrace (fun _ => ParseResult.parsed (some sampleFullMesh)) "arrow.obj" =
        Exec.ok (true, [Callback.onSuccess b]) ∧
      b.positions.length = 9 ∧ b.normals.length = 9 ∧ b.texCoords.length = 6 := by
  have h := LoadMesh_flattened_lengths (fun _ => ParseResult.parsed (some sampleFullMesh))
    "arrow.obj" sampleFullMesh rfl sampleFullMesh_wellFormed (by decide) (by decide) (by decide)
  refine ⟨sampleFullMesh_wellFormed, by decide, by decide, by decide, ?_⟩
  obtain ⟨b, hb⟩ := h.2 (by decide) (by decide)
  exact ⟨b, hb, h.1 true _ b hb (List.mem_singleton_self _)⟩

/-- C3: a channel is present exactly when its source entry count is greater
than 1. Whatever `LoadMesh` hands to `onSuccess`, a channel with at most one
entry (in particular exactly one normal entry, the sentinel) is empty,
whatever the number of face corners and the other channels, and a channel
with more than one entry holds one tuple per face corner; the threshold is
the same for positions, normals and texture coordinates. When the indices
are in range and `3 * K` fits in 32 bits the run does hand the buffers over. -/
theorem LoadMesh_channel_threshold {α : Type} [Zero α] (resources : String → ParseResult α)
    (pathToMesh : String) (m : fastObjMesh α)
    (hres : resources pathToMesh = ParseResult.parsed (some m))
    (hK : m.index_count < 2 ^ 32) :
    (∀ r trace b, LoadMeshTrace resources pathToMesh = Exec.ok (r, trace) →
      Callback.onSuccess b ∈ trace →
        (m.normal_count = 1 → b.normals = []) ∧
        (m.position_count ≤ 1 → b.positions = []) ∧
        (m.normal_count ≤ 1 → b.normals = []) ∧
        (m.texcoord_count ≤ 1 → b.texCoords = []) ∧
        (m.position_count > 1 → b.positions.length = 3 * m.index_count) ∧
        (m.normal_count > 1 → b.normals.length = 3 * m.index_count) ∧
        (m.texcoord_count > 1 → b.texCoords.length = 2 * m.index_count)) ∧
    (WellFormed m → InRange m → 3 * m.index_count < 2 ^ 32 →
      ∃ b, LoadMeshTrace resources pathToMesh = Exec.ok (true, [Callback.onSuccess b])) := by
  refine ⟨?_, fun hwf hin hfit =>
    ⟨_, LoadMeshTrace_eq_flatten resources pathToMesh m hres hwf hin hfit⟩⟩
  intro r trace b hrun hb
  obtain ⟨lp, ln, lt⟩ := fillBuffers_ok_lengths hK (fillBuffers_of_trace hres hrun hb)
  have eN : m.normal_count ≤ 1 → b.normals = [] := fun hc => by
    rw [if_neg (by omega)] at ln
    exact List.length_eq_zero.mp ln
  refine ⟨fun hc => eN (by omega), fun hc => ?_, eN, fun hc => ?_, fun hc => ?_, fun hc => ?_,
    fun hc => ?_⟩
  · rw [if_neg (by omega)] at lp
    exact List.length_eq_zero.mp lp
  · rw [if_neg (by omega)] at lt
    exact List.length_eq_zero.mp lt
  · rw [if_pos hc] at lp; exact lp
  · rw [if_pos hc] at ln; exact ln
  · rw [if_pos hc] at lt; exact lt

/-- C3 at the sample arrow mesh, which has four position entries, six face
corners and one normal entry: the run hands over 18 position floats and an
empty normal sequence. -/
theorem LoadMesh_channel_threshold_witness :
    sampleArrowMesh.index_count < 2 ^ 32 ∧ sampleArrowMesh.normal_count = 1 ∧
    ∃ b, LoadMeshTrace sampleResources "arrow.obj" = Exec.ok (true, [Callback.onSuccess b]) ∧
      b.normals = [] ∧ b.positions.length = 18 := by
  have h := LoadMesh_channel_threshold sampleResources "arrow.obj" sampleArrowMesh rfl
    (by decide)
  refine ⟨by decide, rfl, ?_⟩
  obtain ⟨b, hb⟩ := h.2 sampleArrowMesh_wellFormed (by decide) (by decide)
  have hc := h.1 true _ b hb (List.mem_singleton_self _)
  exact ⟨b, hb, hc.1 rfl, hc.2.2.2.2.1 (by decide)⟩

/-- C9 (as stated, refuted): two parses after which `LoadMesh` invokes no
callback and does not return. The parser returned a mesh whose second corner
refers to position entry 9 of 4, with array sizes as announced: the flattening
reads outside the position array. The parser returned no mesh: the `CHECK` on
the mesh pointer aborts. -/
theorem LoadMesh_without_callback :
    WellFormed outOfRangeMesh ∧ ¬ InRange outOfRangeMesh ∧
    LoadMeshTrace (fun _ => ParseResult.parsed (some outOfRangeMesh)) "arrow.obj" =
      Exec.undefinedBehaviour ∧
    LoadMeshTrace (fun _ => (ParseResult.parsed none : ParseResult ℤ)) "arrow.obj" =
      Exec.checkFailed := by
  refine ⟨⟨by decide, by decide, by decide, by decide, by decide, by decide, by decide,
    by decide⟩, by decide, ?_, rfl⟩
  rw [LoadMeshTrace_of_parsed _ _ outOfRangeMesh rfl]
  rfl

/-- C9 (amended): with callbacks that do not throw, when the resource lookup
or the stream throws a recoverable error, `LoadMesh` invokes `onFailure` with
the message of that error, does not invoke `onSuccess`, and returns false.
When the parser returned a mesh with array sizes as announced by its counts,
corner indices in range and `3 * K` within 32 bits, it invokes `onSuccess` with
the three flattened sequences, does not invoke `onFailure`, and returns true.
Every run that returns has invoked exactly one of the two callbacks, once, and
no error thrown by the lookup or the stream leaves `LoadMesh`. -/
theorem LoadMesh_invokes_one_callback {α σ : Type} [Zero α]
    (resources : String → ParseResult α) (pathToMesh : String)
    (onSuccess : MeshBuffers α → σ → σ) (onFailure : String → σ → σ) (s : σ) :
    (∀ what, resources pathToMesh = ParseResult.raised what →
      LoadMesh resources pathToMesh (some fun b s => Exec.ok (onSuccess b s))
        (some fun what s => Exec.ok (onFailure what s)) s = Exec.ok (false, onFailure what s) ∧
      LoadMeshTrace resources pathToMesh = Exec.ok (false, [Callback.onFailure what])) ∧
    (∀ m, resources pathToMesh = ParseResult.parsed (some m) →
      WellFormed m → InRange m → 3 * m.index_count < 2 ^ 32 →
        LoadMesh resources pathToMesh (some fun b s => Exec.ok (onSuccess b s))
          (some fun what s => Exec.ok (onFailure what s)) s =
          Exec.ok (true, onSuccess (flatten m) s) ∧
        LoadMeshTrace resources pathToMesh =
          Exec.ok (true, [Callback.onSuccess (flatten m)])) ∧
    (∀ r trace, LoadMeshTrace resources pathToMesh = Exec.ok (r, trace) →
      (∃ what, resources pathToMesh = ParseResult.raised what ∧ r = false ∧
        trace = [Callback.onFailure what]) ∨
      (∃ m b, resources pathToMesh = ParseResult.parsed (some m) ∧
        fillBuffers m = Exec.ok b ∧ r = true ∧ trace = [Callback.onSuccess b])) ∧
    (∀ what,
      LoadMesh resources pathToMesh (some fun b s => Exec.ok (onSuccess b s))
        (some fun what s => Exec.ok (onFailure what s)) s ≠ Exec.raised what) := by
  refine ⟨fun what hres => ⟨LoadMesh_of_raised _ _ _ _ _ what hres,
      LoadMeshTrace_of_raised _ _ what hres⟩,
    fun m hres hwf hin hfit => ⟨?_, LoadMeshTrace_eq_flatten _ _ m hres hwf hin hfit⟩, ?_, ?_⟩
  · rw [LoadMesh_of_parsed _ _ _ _ _ m hres, fillBuffers_eq_flatten m hwf hin hfit]
    rfl
  · intro r trace hrun
    cases hres : resources pathToMesh with
    | raised what =>
      rw [LoadMeshTrace_of_raised _ _ what hres] at hrun
      injection hrun with hrun
      injection hrun with h1 h2
      exact Or.inl ⟨what, rfl, h1.symm, h2.symm⟩
    | parsed meshData =>
      cases meshData with
      | none =>
        simp [LoadMeshTrace, LoadMesh, hres] at hrun
      | some m =>
        rw [LoadMeshTrace_of_parsed _ _ m hres] at hrun
        obtain ⟨b, hb, h⟩ := Exec.bind_eq_ok hrun
        injection h with h
        injection h with h1 h2
        exact Or.inr ⟨m, b, rfl, hb, h1.symm, h2.symm⟩
  · intro what h
    cases hres : resources pathToMesh with
    | raised w =>
      rw [LoadMesh_of_raised _ _ _ _ _ w hres] at h
      exact Exec.noConfusion h
    | parsed meshData =>
      cases meshData with
      | none =>
        simp [LoadMesh, hres] at h
      | some m =>
        rw [LoadMesh_of_parsed _ _ _ _ _ m hres] at h
        have hf := fillBuffers_okOrOutside m
        cases hfb : fillBuffers m with
        | ok b => rw [hfb] at h; simp [Exec.bind] at h
        | checkFailed => rw [hfb] at h; simp [Exec.bind] at h
        | raised w => rw [hfb] at hf; exact hf
        | undefinedBehaviour => rw [hfb] at h; simp [Exec.bind] at h

/-- C9 (amended) at the sample arrow mesh, whose flattened sequences go to
`onSuccess`, and at a resource whose lookup throws. -/
theorem LoadMesh_invokes_one_callback_witness :
    LoadMeshTrace sampleResources "arrow.obj" =
      Exec.ok (true, [Callback.onSuccess (flatten sampleArrowMesh)]) ∧
    LoadMeshTrace (fun _ => (ParseResult.raised "missing" : ParseResult ℤ)) "arrow.obj" =
      Exec.ok (false, [Callback.onFailure "missing"]) :=
  ⟨((LoadMesh_invokes_one_callback sampleResources "arrow.obj" (fun _ (u : Unit) => u)
      (fun _ u => u) ()).2.1 sampleArrowMesh rfl sampleArrowMesh_wellFormed (by decide)
      (by decide)).2,
    ((LoadMesh_invokes_one_callback (fun _ => (ParseResult.raised "missing" : ParseResult ℤ))
      "arrow.obj" (fun _ (u : Unit) => u) (fun _ u => u) ()).1 "missing" rfl).2⟩

/-! ## Construction of the marker -/

theorem LoadMesh_failure_logged {α : Type} [Zero α] (resources : String → ParseResult α)
    (pathToMesh : String) (completion : MeshBuffers α → Construction α → Exec (Construction α))
    (c : Construction α) (what : String)
    (hres : resources pathToMesh = ParseResult.raised what) :
    LoadMesh resources pathToMesh (some completion) (some Arrow3d.logFailure) c =
      Exec.ok (false, { c with log := c.log ++ [what] }) := by
  simp only [LoadMesh, hres, Arrow3d.logFailure, Exec.bind]

theorem LoadMesh_completion_ok {α σ : Type} [Zero α] (resources : String → ParseResult α)
    (pathToMesh : String) (completion : MeshBuffers α → σ → Exec σ)
    (failure : String → σ → Exec σ) (s s1 : σ) (m : fastObjMesh α) (b : MeshBuffers α)
    (hres : resources pathToMesh = ParseResult.parsed (some m))
    (hb : fillBuffers m = Exec.ok b) (hc : completion b s = Exec.ok s1) :
    LoadMesh resources pathToMesh (some completion) (some failure) s = Exec.ok (true, s1) := by
  simp only [LoadMesh, hres, hb, Exec.bind, hc]

theorem LoadMesh_completion_check {α σ : Type} [Zero α] (resources : String → ParseResult α)
    (pathToMesh : String) (completion : MeshBuffers α → σ → Exec σ)
    (failure : String → σ → Exec σ) (s : σ) (m : fastObjMesh α) (b : MeshBuffers α)
    (hres : resources pathToMesh = ParseResult.parsed (some m))
    (hb : fillBuffers m = Exec.ok b) (hc : completion b s = Exec.checkFailed) :
    LoadMesh resources pathToMesh (some completion) (some failure) s = Exec.checkFailed := by
  simp only [LoadMesh, hres, hb, Exec.bind, hc]

theorem flatten_positions_ne_nil {α : Type} [Zero α] (m : fastObjMesh α) (hwf : WellFormed m)
    (hin : InRange m) (hfit : 3 * m.index_count < 2 ^ 32) (hP : m.position_count > 1)
    (hK : m.index_count > 0) : (flatten m).positions.length = 3 * m.index_count ∧
      (flatten m).positions.isEmpty = false := by
  have h := (fillBuffers_ok_lengths hwf.indices_u32 (fillBuffers_eq_flatten m hwf hin hfit)).1
  rw [if_pos hP] at h
  refine ⟨h, ?_⟩
  cases hp : (flatten m).positions with
  | nil => rw [hp] at h; simp at h; omega
  | cons x xs => rfl

theorem flatten_positions_nil {α : Type} (m : fastObjMesh α) (hwf : WellFormed m)
    (h : m.position_count ≤ 1 ∨ m.index_count = 0) : (flatten m).positions.isEmpty = true := by
  simp only [flatten, flatChannel]
  by_cases hP : m.position_count > 1
  · have hK : m.index_count = 0 := by omega
    have hnil : m.indices = [] := List.length_eq_zero.mp (hwf.indices_size.trans hK)
    simp [hP, hnil, gather]
  · simp [hP]

theorem GenerateNormalsForTriangles_nil {α : Type} [Zero α]
    (triangleNormal : α × α × α → α × α × α → α × α × α → α × α × α) (componentsCount : Nat) :
    MeshObject.GenerateNormalsForTriangles triangleNormal [] componentsCount = [] := by
  simp [MeshObject.GenerateNormalsForTriangles]

theorem arrowMeshLoaded_ok {α : Type} [Zero α]
    (triangleNormal : α × α × α → α × α × α → α × α × α → α × α × α)
    (b : MeshBuffers α) (c : Construction α) (h : b.positions.isEmpty = false)
    (hc : c.marker.m_arrowMesh = MeshObject.empty) :
    ∃ mesh, Arrow3d.arrowMeshLoaded triangleNormal b c =
        Exec.ok { c with marker := { c.marker with m_arrowMesh := mesh } } ∧
      mesh.bufferData Arrow3d.kVerticesBufferInd = some b.positions ∧
      (b.normals.isEmpty = true → mesh.bufferData Arrow3d.kNormalsBufferInd = some []) ∧
      (b.normals.isEmpty = false → mesh.bufferData Arrow3d.kNormalsBufferInd = some b.normals) := by
  refine ⟨((((MeshObject.empty.SetBuffer Arrow3d.kVerticesBufferInd b.positions
      (sizeofFloat * kComponentsInVertex)).1.SetAttribute "a_pos" Arrow3d.kVerticesBufferInd 0
      kComponentsInVertex).SetBuffer Arrow3d.kNormalsBufferInd
      (if b.normals.isEmpty then
        MeshObject.GenerateNormalsForTriangles triangleNormal [] kComponentsInNormal
       else b.normals)
      (sizeofFloat * kComponentsInNormal)).1.SetAttribute "a_normal" Arrow3d.kNormalsBufferInd 0
      kComponentsInNormal), ?_, ?_, ?_, ?_⟩
  · simp only [Arrow3d.arrowMeshLoaded, h, hc, Bool.false_eq_true, if_false]
    rfl
  · rfl
  · intro hn
    simp only [hn, if_true, GenerateNormalsForTriangles_nil]
    rfl
  · intro hn
    simp only [hn, Bool.false_eq_true, if_false]
    rfl

theorem arrowMeshLoaded_check {α : Type} [Zero α]
    (triangleNormal : α × α × α → α × α × α → α × α × α → α × α × α)
    (b : MeshBuffers α) (c : Construction α) (h : b.positions.isEmpty = true) :
    Arrow3d.arrowMeshLoaded triangleNormal b c = Exec.checkFailed := by
  simp only [Arrow3d.arrowMeshLoaded, h, if_true]

theorem shadowMeshLoaded_ok {α : Type} (b : MeshBuffers α) (c : Construction α)
    (h : b.positions.isEmpty = false) (hc : c.marker.m_shadowMesh = MeshObject.empty) :
    ∃ mesh, Arrow3d.shadowMeshLoaded b c =
        Exec.ok { c with marker := { c.marker with m_shadowMesh := mesh } } ∧
      mesh.bufferData Arrow3d.kVerticesBufferInd = some b.positions ∧
      mesh.bufferData Arrow3d.kTexCoordShadowBufferInd = some b.texCoords := by
  refine ⟨((((MeshObject.empty.SetBuffer Arrow3d.kVerticesBufferInd b.positions
      (sizeofFloat * kComponentsInVertex)).1.SetAttribute "a_pos" Arrow3d.kVerticesBufferInd 0
      kComponentsInVertex).SetBuffer Arrow3d.kTexCoordShadowBufferInd b.texCoords
      (sizeofFloat * kComponentsInTexCoord)).1.SetAttribute "a_texCoords"
      Arrow3d.kTexCoordShadowBufferInd 0 kComponentsInTexCoord), ?_, ?_, ?_⟩
  · simp only [Arrow3d.shadowMeshLoaded, h, hc, Bool.false_eq_true, if_false]
  · rfl
  · rfl

theorem shadowMeshLoaded_check {α : Type} (b : MeshBuffers α) (c : Construction α)
    (h : b.positions.isEmpty = true) : Arrow3d.shadowMeshLoaded b c = Exec.checkFailed := by
  simp only [Arrow3d.shadowMeshLoaded, h, if_true]

/-- The first load of the constructor on a loadable resource. -/
theorem load_arrow_mesh {α : Type} [Zero α] (resources : String → ParseResult α)
    (triangleNormal : α × α × α → α × α × α → α × α × α → α × α × α)
    (hA : Loadable (resources kDefaultArrowMesh)) :
    ∃ r c, LoadMesh resources kDefaultArrowMesh
        (some (Arrow3d.arrowMeshLoaded triangleNormal)) (some Arrow3d.logFailure)
        { marker := Arrow3d.initial, log := [] } = Exec.ok (r, c) ∧
      c.marker.m_shadowMesh = MeshObject.empty ∧
      (∀ what, resources kDefaultArrowMesh = ParseResult.raised what →
        c.marker.m_arrowMesh = MeshObject.empty ∧ c.log = [what]) ∧
      (∀ m, resources kDefaultArrowMesh = ParseResult.parsed (some m) →
        c.marker.m_arrowMesh.bufferData Arrow3d.kVerticesBufferInd = some (flatten m).positions ∧
        c.log = []) := by
  cases hres : resources kDefaultArrowMesh with
  | raised what =>
    refine ⟨false, _, LoadMesh_failure_logged _ _ _ _ what hres, rfl, ?_, ?_⟩
    · intro w hw
      injection hw with hw
      subst hw
      exact ⟨rfl, rfl⟩
    · intro m hm
      exact ParseResult.noConfusion hm
  | parsed meshData =>
    cases meshData with
    | none => rw [hres] at hA; exact absurd hA (by simp [Loadable])
    | some m =>
      rw [hres] at hA
      obtain ⟨hwf, hin, hfit, hP, hK⟩ := hA
      obtain ⟨mesh, hmesh, hpos, -, -⟩ := arrowMeshLoaded_ok triangleNormal (flatten m)
        { marker := Arrow3d.initial, log := [] }
        (flatten_positions_ne_nil m hwf hin hfit hP hK).2 rfl
      refine ⟨true, _, LoadMesh_completion_ok _ _ _ _ _ _ m _ hres
        (fillBuffers_eq_flatten m hwf hin hfit) hmesh, rfl, ?_, ?_⟩
      · intro w hw
        exact ParseResult.noConfusion hw
      · intro m1 hm1
        injection hm1 with hm1
        injection hm1 with hm1
        subst hm1
        exact ⟨hpos, rfl⟩

/-- The second load of the constructor on a loadable resource. -/
theorem load_shadow_mesh {α : Type} [Zero α] (resources : String → ParseResult α)
    (c0 : Construction α) (hc0 : c0.marker.m_shadowMesh = MeshObject.empty)
    (hS : Loadable (resources kDefaultArrowShadowMesh)) :
    ∃ r c, LoadMesh resources kDefaultArrowShadowMesh
        (some Arrow3d.shadowMeshLoaded) (some Arrow3d.logFailure) c0 = Exec.ok (r, c) ∧
      c.marker.m_arrowMesh = c0.marker.m_arrowMesh ∧
      (∀ what, resources kDefaultArrowShadowMesh = ParseResult.raised what →
        c.marker.m_shadowMesh = MeshObject.empty ∧ c.log = c0.log ++ [what]) ∧
      (∀ m, resources kDefaultArrowShadowMesh = ParseResult.parsed (some m) →
        c.marker.m_shadowMesh.bufferData Arrow3d.kVerticesBufferInd =
          some (flatten m).positions ∧
        c.marker.m_shadowMesh.bufferData Arrow3d.kTexCoordShadowBufferInd =
          some (flatten m).texCoords ∧
        c.log = c0.log) := by
  cases hres : resources kDefaultArrowShadowMesh with
  | raised what =>
    refine ⟨false, _, LoadMesh_failure_logged _ _ _ _ what hres, rfl, ?_, ?_⟩
    · intro w hw
      injection hw with hw
      subst hw
      exact ⟨hc0, rfl⟩
    · intro m hm
      exact ParseResult.noConfusion hm
  | parsed meshData =>
    cases meshData with
    | none => rw [hres] at hS; exact absurd hS (by simp [Loadable])
    | some m =>
      rw [hres] at hS
      obtain ⟨hwf, hin, hfit, hP, hK⟩ := hS
      obtain ⟨mesh, hmesh, hpos, htex⟩ := shadowMeshLoaded_ok (flatten m) c0
        (flatten_positions_ne_nil m hwf hin hfit hP hK).2 hc0
      refine ⟨true, _, LoadMesh_completion_ok _ _ _ _ _ _ m _ hres
        (fillBuffers_eq_flatten m hwf hin hfit) hmesh, rfl, ?_, ?_⟩
      · intro w hw
        exact ParseResult.noConfusion hw
      · intro m1 hm1
        injection hm1 with hm1
        injection hm1 with hm1
        subst hm1
        exact ⟨hpos, htex, rfl⟩

/-- C4 (defect): the arrow mesh with four position entries, two triangles and
no normals. The constructor installs the 18 flattened position floats, and
then synthesizes the normals from the vector it has just moved into the mesh
object, which is empty: the installed normal buffer is empty, while the
normals synthesized from the 18 flattened positions are 18 floats. -/
theorem construct_installs_empty_normals :
    ∃ c, Arrow3d.construct sampleResources sampleTriangleNormal = Exec.ok c ∧
      c.marker.m_arrowMesh.bufferData Arrow3d.kVerticesBufferInd =
        some [0, 0, 0, 1, 0, 0, 1, 1, 0, 0, 0, 0, 1, 1, 0, 0, 1, 0] ∧
      c.marker.m_arrowMesh.bufferData Arrow3d.kNormalsBufferInd = some [] ∧
      MeshObject.GenerateNormalsForTriangles sampleTriangleNormal
        [0, 0, 0, 1, 0, 0, 1, 1, 0, 0, 0, 0, 1, 1, 0, 0, 1, 0] kComponentsInNormal =
        [0, 0, 1, 0, 0, 1, 0, 0, 1, 0, 0, 1, 0, 0, 1, 0, 0, 1] ∧
      c.marker.m_shadowMesh.bufferData Arrow3d.kTexCoordShadowBufferInd =
        some [5, 6, 7, 8, 5, 6, 7, 8, 5, 6, 7, 8] := by
  refine ⟨_, rfl, rfl, rfl, ?_, rfl⟩
  decide

/-- C10 (as stated, refuted): resources that parse successfully, to a mesh
whose position channel holds only the sentinel entry, to the mesh of an empty
file, and to a mesh with four position entries and no face corner. The
flattening completes with an empty position sequence and the constructor trips
`CHECK(!positions.empty())`, for the arrow mesh and, after a good arrow mesh,
for the shadow mesh. -/
theorem construct_aborts_on_empty_positions :
    fillBuffers sentinelPositionsMesh =
      Exec.ok { positions := [], normals := [7, 8, 9, 7, 8, 9, 7, 8, 9],
                texCoords := [5, 6, 5, 6, 5, 6] } ∧
    Arrow3d.construct (fun _ => ParseResult.parsed (some sentinelPositionsMesh))
      sampleTriangleNormal = Exec.checkFailed ∧
    fillBuffers emptyFileMesh = Exec.ok { positions := [], normals := [], texCoords := [] } ∧
    Arrow3d.construct (fun _ => ParseResult.parsed (some emptyFileMesh))
      sampleTriangleNormal = Exec.checkFailed ∧
    fillBuffers noFaceMesh = Exec.ok { positions := [], normals := [], texCoords := [] } ∧
    Arrow3d.construct (fun _ => ParseResult.parsed (some noFaceMesh))
      sampleTriangleNormal = Exec.checkFailed ∧
    Arrow3d.construct
      (fun pathToMesh =>
        if pathToMesh = "arrow.obj" then ParseResult.parsed (some sampleArrowMesh)
        else ParseResult.parsed (some noFaceMesh))
      sampleTriangleNormal = Exec.checkFailed := by
  refine ⟨rfl, rfl, rfl, rfl, rfl, rfl, rfl⟩

/-- C10 (amended): when each of the two resources either makes the lookup or
the stream throw, or parses to a well-formed mesh with indices in range, more
than one position entry and at least one face corner (with `3 * K` within 32
bits), the constructor completes without a failed `CHECK` and without
throwing: a failed load is logged and leaves its mesh object without buffers,
a good load installs the flattened positions (and, for the shadow, the
flattened texture coordinates). A resource that parses to a mesh with at most
the sentinel position entry or with no face corner trips
`CHECK(!positions.empty())`. -/
theorem construct_outcome {α : Type} [Zero α] (resources : String → ParseResult α)
    (triangleNormal : α × α × α → α × α × α → α × α × α → α × α × α) :
    (Loadable (resources kDefaultArrowMesh) → Loadable (resources kDefaultArrowShadowMesh) →
      ∃ c, Arrow3d.construct resources triangleNormal = Exec.ok c ∧
        (∀ what, resources kDefaultArrowMesh = ParseResult.raised what →
          c.marker.m_arrowMesh = MeshObject.empty ∧ what ∈ c.log) ∧
        (∀ m, resources kDefaultArrowMesh = ParseResult.parsed (some m) →
          c.marker.m_arrowMesh.bufferData Arrow3d.kVerticesBufferInd =
            some (flatten m).positions) ∧
        (∀ what, resources kDefaultArrowShadowMesh = ParseResult.raised what →
          c.marker.m_shadowMesh = MeshObject.empty ∧ what ∈ c.log) ∧
        (∀ m, resources kDefaultArrowShadowMesh = ParseResult.parsed (some m) →
          c.marker.m_shadowMesh.bufferData Arrow3d.kVerticesBufferInd =
            some (flatten m).positions ∧
          c.marker.m_shadowMesh.bufferData Arrow3d.kTexCoordShadowBufferInd =
            some (flatten m).texCoords)) ∧
    (∀ m, resources kDefaultArrowMesh = ParseResult.parsed (some m) → WellFormed m →
      InRange m → 3 * m.index_count < 2 ^ 32 → m.position_count ≤ 1 ∨ m.index_count = 0 →
      Arrow3d.construct resources triangleNormal = Exec.checkFailed) ∧
    (Loadable (resources kDefaultArrowMesh) →
      ∀ m, resources kDefaultArrowShadowMesh = ParseResult.parsed (some m) → WellFormed m →
        InRange m → 3 * m.index_count < 2 ^ 32 → m.position_count ≤ 1 ∨ m.index_count = 0 →
        Arrow3d.construct resources triangleNormal = Exec.checkFailed) := by
  refine ⟨fun hA hS => ?_, fun m hres hwf hin hfit hempty => ?_,
    fun hA m hres hwf hin hfit hempty => ?_⟩
  · obtain ⟨r1, c1, h1, hs1, hr1, hp1⟩ := load_arrow_mesh resources triangleNormal hA
    obtain ⟨r2, c2, h2, ha2, hr2, hp2⟩ := load_shadow_mesh resources c1 hs1 hS
    refine ⟨c2, ?_, ?_, ?_, ?_, ?_⟩
    · simp only [Arrow3d.construct, h1, Exec.bind, h2]
    · intro what hw
      obtain ⟨e1, e2⟩ := hr1 what hw
      refine ⟨ha2.trans e1, ?_⟩
      cases hres : resources kDefaultArrowShadowMesh with
      | raised w => rw [(hr2 w hres).2, e2]; simp
      | parsed meshData =>
        cases meshData with
        | none => rw [hres] at hS; exact absurd hS (by simp [Loadable])
        | some m => rw [(hp2 m hres).2.2, e2]; simp
    · intro m hm
      rw [ha2]
      exact (hp1 m hm).1
    · intro what hw
      obtain ⟨e1, e2⟩ := hr2 what hw
      exact ⟨e1, by rw [e2]; simp⟩
    · intro m hm
      exact ⟨(hp2 m hm).1, (hp2 m hm).2.1⟩
  · simp only [Arrow3d.construct]
    rw [LoadMesh_completion_check _ _ _ _ _ m _ hres (fillBuffers_eq_flatten m hwf hin hfit)
      (arrowMeshLoaded_check triangleNormal _ _ (flatten_positions_nil m hwf hempty))]
    rfl
  · obtain ⟨r1, c1, h1, -, -, -⟩ := load_arrow_mesh resources triangleNormal hA
    simp only [Arrow3d.construct, h1, Exec.bind]
    rw [LoadMesh_completion_check _ _ _ _ _ m _ hres (fillBuffers_eq_flatten m hwf hin hfit)
      (shadowMeshLoaded_check _ _ (flatten_positions_nil m hwf hempty))]

/-- C10 (amended) at sample resources: a missing arrow mesh and a good shadow
mesh. Construction completes, the failure is logged, the arrow mesh object has
no buffers and the shadow mesh object holds 18 position floats and 12 texture
coordinate floats. -/
theorem construct_outcome_witness :
    ∃ c, Arrow3d.construct
        (fun pathToMesh =>
          if pathToMesh = "arrow.obj" then ParseResult.raised "arrow.obj is missing"
          else ParseResult.parsed (some sampleShadowMesh))
        sampleTriangleNormal = Exec.ok c ∧
      c.marker.m_arrowMesh = MeshObject.empty ∧ "arrow.obj is missing" ∈ c.log ∧
      c.marker.m_shadowMesh.bufferData Arrow3d.kVerticesBufferInd =
        some [0, 0, 0, 1, 0, 0, 1, 1, 0, 0, 0, 0, 1, 1, 0, 0, 1, 0] ∧
      c.marker.m_shadowMesh.bufferData Arrow3d.kTexCoordShadowBufferInd =
        some [5, 6, 7, 8, 5, 6, 7, 8, 5, 6, 7, 8] := by
  obtain ⟨c, hc, hA, -, -, hS⟩ :=
    (construct_outcome
      (fun pathToMesh =>
        if pathToMesh = "arrow.obj" then ParseResult.raised "arrow.obj is missing"
        else ParseResult.parsed (some sampleShadowMesh))
      sampleTriangleNormal).1 trivial
      ⟨sampleShadowMesh_wellFormed, by decide, by decide, by decide, by decide⟩
  have h1 := hA "arrow.obj is missing" rfl
  have h2 := hS sampleShadowMesh rfl
  exact ⟨c, hc, h1.1, h1.2, h2.1, h2.2⟩

/-! ## The stream adapter -/

/-- C6: for every path and context, `FileOpen` returns the context when the
path is the sentinel name `main_obj_file_id` and no file for every other path;
for the material file name `arrow.mtl` it returns no file. -/
theorem FileOpen_only_main_file {β : Type} (path : String) (ctx : Option β) :
    fast_obj_adapter.FileOpen path ctx = (if path = kMainFileId then ctx else none) ∧
    kMainFileId = "main_obj_file_id" ∧
    fast_obj_adapter.FileOpen "arrow.mtl" ctx = none := by
  refine ⟨?_, rfl, ?_⟩
  · unfold fast_obj_adapter.FileOpen
    by_cases h : path = kMainFileId
    · subst h; simp
    · have h2 : (kMainFileId != path) = true := by
        simp only [bne_iff_ne, ne_eq]
        exact fun e => h e.symm
      rw [if_pos h2, if_neg h]
  · unfold fast_obj_adapter.FileOpen kMainFileId
    rw [if_pos (by decide)]

/-- What `FileRead` does on a stream with `reader.Size` remaining bytes when
asked for `bytes` bytes. -/
theorem FileRead_eq (sizeBits : Nat) (reader : ReaderSource) (bytes : Nat)
    (hbytes : bytes < 2 ^ sizeBits) :
    fast_obj_adapter.FileRead sizeBits (some reader) bytes =
      Exec.ok (min bytes reader.Size, reader.rest.take (min bytes reader.Size),
        { pos := reader.pos + min bytes reader.Size
          rest := reader.rest.drop (min bytes reader.Size) }) := by
  unfold fast_obj_adapter.FileRead
  simp only [ReaderSource.Size, ReaderSource.Pos]
  by_cases h0 : reader.rest.length = 0
  · have hnil : reader.rest = [] := List.length_eq_zero.mp h0
    obtain ⟨pos, rest⟩ := reader
    simp only at hnil
    subst hnil
    simp
  · rw [if_neg h0]
    by_cases hgt : bytes > reader.rest.length
    · have hlt : reader.rest.length < 2 ^ sizeBits := Nat.lt_trans hgt hbytes
      have hmin : min bytes reader.rest.length = reader.rest.length := Nat.min_eq_right (Nat.le_of_lt hgt)
      simp only [if_pos hgt, Nat.mod_eq_of_lt hlt, ReaderSource.Read, Nat.le_refl, if_true,
        Exec.bind, Nat.le_add_right, Nat.add_sub_cancel_left, hmin]
    · have hle : bytes ≤ reader.rest.length := Nat.le_of_not_gt hgt
      have hmin : min bytes reader.rest.length = bytes := Nat.min_eq_left hle
      simp only [if_neg hgt, ReaderSource.Read, if_pos hle, Exec.bind, Nat.le_add_right,
        if_true, Nat.add_sub_cancel_left, Nat.mod_eq_of_lt hbytes, hmin]

/-- C7: on a stream with `r` remaining bytes `FileRead` asked for `n` bytes
returns `min n r`, writes the next `min n r` bytes of the stream to `dst` in
order and leaves `r - min n r` bytes in the stream; at the end of the stream
it returns 0, writes nothing and leaves the stream unchanged. -/
theorem FileRead_clamps (sizeBits : Nat) (reader : ReaderSource) (n : Nat)
    (hn : n < 2 ^ sizeBits) :
    ∃ written after,
      fast_obj_adapter.FileRead sizeBits (some reader) n =
        Exec.ok (min n reader.Size, written, after) ∧
      written = reader.rest.take (min n reader.Size) ∧
      written.length = min n reader.Size ∧
      after.rest = reader.rest.drop (min n reader.Size) ∧
      after.Pos = reader.Pos + min n reader.Size ∧
      after.Size = reader.Size - min n reader.Size ∧
      (reader.Size = 0 →
        fast_obj_adapter.FileRead sizeBits (some reader) n = Exec.ok (0, [], reader)) := by
  refine ⟨_, _, FileRead_eq sizeBits reader n hn, rfl, ?_, rfl, rfl, ?_, ?_⟩
  · simp only [List.length_take, ReaderSource.Size]
    omega
  · simp only [ReaderSource.Size, List.length_drop]
  · intro h0
    unfold fast_obj_adapter.FileRead
    simp [h0]

/-- C7 at a concrete stream: five bytes remain, three are asked for. -/
theorem FileRead_clamps_witness :
    (3 < 2 ^ 64) ∧
    ∃ written after,
      fast_obj_adapter.FileRead 64 (some { pos := 7, rest := [10, 20, 30, 40, 50] }) 3 =
        Exec.ok (3, written, after) ∧ written = [10, 20, 30] ∧ after.rest = [40, 50] ∧
        after.Pos = 10 ∧ after.Size = 2 := by
  refine ⟨by norm_num, ?_⟩
  obtain ⟨written, after, h1, h2, -, h4, h5, h6, -⟩ :=
    FileRead_clamps 64 { pos := 7, rest := [10, 20, 30, 40, 50] } 3 (by norm_num)
  exact ⟨written, after, h1, h2, h4, h5, h6⟩

/-- What `FileSize` does on a stream: the strict comparison with
`std::numeric_limits<size_t>::max()` decides between the size and the abort. -/
theorem FileSize_eq (sizeBits : Nat) (reader : ReaderSource) :
    fast_obj_adapter.FileSize sizeBits (some reader) =
      if reader.Size < 2 ^ sizeBits - 1 then Exec.ok reader.Size else Exec.checkFailed := by
  unfold fast_obj_adapter.FileSize
  by_cases h : reader.Size < 2 ^ sizeBits - 1
  · simp only [if_pos h]
    rw [Nat.mod_eq_of_lt (by omega)]
  · simp only [if_neg h]

/-- C8 (as stated, refuted): a stream whose remaining length is exactly the
maximum value of a 32-bit `size_t` is representable in that type, and
`FileSize` aborts on it instead of returning the length, and likewise for a
64-bit `size_t`; one byte less is returned. -/
theorem FileSize_aborts_at_size_max :
    (List.replicate (2 ^ 32 - 1) (0 : Byte)).length ≤ 2 ^ 32 - 1 ∧
    fast_obj_adapter.FileSize 32 (some { pos := 0, rest := List.replicate (2 ^ 32 - 1) 0 }) =
      Exec.checkFailed ∧
    fast_obj_adapter.FileSize 64 (some { pos := 0, rest := List.replicate (2 ^ 64 - 1) 0 }) =
      Exec.checkFailed ∧
    fast_obj_adapter.FileSize 32 (some { pos := 0, rest := List.replicate (2 ^ 32 - 2) 0 }) =
      Exec.ok (2 ^ 32 - 2) := by
  refine ⟨by rw [List.length_replicate], ?_, ?_, ?_⟩
  · rw [FileSize_eq]
    simp only [ReaderSource.Size, List.length_replicate]
    rw [if_neg (Nat.lt_irrefl _)]
  · rw [FileSize_eq]
    simp only [ReaderSource.Size, List.length_replicate]
    rw [if_neg (Nat.lt_irrefl _)]
  · rw [FileSize_eq]
    simp only [ReaderSource.Size, List.length_replicate]
    rw [if_pos (by norm_num)]

/-- C8 (amended): for every stream with a non-null context, `FileSize` returns
the remaining stream length exactly when that length is strictly below the
maximum value of the size type, and fails fast exactly when the length is that
maximum or above it. A value it returns is the remaining length, and on a null
context it fails fast. -/
theorem FileSize_returns_below_max (sizeBits : Nat) (reader : ReaderSource) :
    (fast_obj_adapter.FileSize sizeBits (some reader) = Exec.ok reader.Size ↔
      reader.Size < 2 ^ sizeBits - 1) ∧
    (fast_obj_adapter.FileSize sizeBits (some reader) = Exec.checkFailed ↔
      2 ^ sizeBits - 1 ≤ reader.Size) ∧
    (∀ n, fast_obj_adapter.FileSize sizeBits (some reader) = Exec.ok n → n = reader.Size) ∧
    fast_obj_adapter.FileSize sizeBits none = Exec.checkFailed := by
  rw [FileSize_eq]
  by_cases h : reader.Size < 2 ^ sizeBits - 1
  · rw [if_pos h]
    refine ⟨⟨fun _ => h, fun _ => rfl⟩, ⟨fun hc => Exec.noConfusion hc, fun hc => by omega⟩,
      fun n hn => ?_, rfl⟩
    injection hn with hn
    exact hn.symm
  · rw [if_neg h]
    refine ⟨⟨fun hc => Exec.noConfusion hc, fun hc => absurd hc h⟩,
      ⟨fun _ => by omega, fun _ => rfl⟩, fun n hn => Exec.noConfusion hn, rfl⟩

/-! ## Render passes -/

/-- C5: for every marker, view and `routingMode` flag, `Render` issues the
shadow pass exactly when the view is perspective, then the outline pass
exactly when `routingMode` is set, then the marker pass. It issues one pass
more than the number of the two flags that are set (one pass when both are
off, three when both are on), and the marker pass is always the last one. -/
theorem Render_pass_order {α : Type} (self : Arrow3d α) (screen : ScreenBase)
    (routingMode : Bool) :
    (self.Render screen routingMode).map (fun pass => (pass.program, pass.mesh)) =
      (if screen.isPerspective then [(gpu.Program.Arrow3dShadow, MeshId.m_shadowMesh)] else []) ++
      (if routingMode then [(gpu.Program.Arrow3dOutline, MeshId.m_shadowMesh)] else []) ++
      [(gpu.Program.Arrow3d, MeshId.m_arrowMesh)] ∧
    (self.Render screen routingMode).length =
      (if screen.isPerspective then 1 else 0) + (if routingMode then 1 else 0) + 1 ∧
    ((self.Render screen routingMode).getLast?.map fun pass => (pass.program, pass.mesh)) =
      some (gpu.Program.Arrow3d, MeshId.m_arrowMesh) ∧
    (self.Render { screen with isPerspective := false } false).map (fun pass => pass.program) =
      [gpu.Program.Arrow3d] ∧
    (self.Render { screen with isPerspective := true } true).map (fun pass => pass.program) =
      [gpu.Program.Arrow3dShadow, gpu.Program.Arrow3dOutline, gpu.Program.Arrow3d] := by
  refine ⟨?_, ?_, ?_, rfl, rfl⟩
  · cases hp : screen.isPerspective <;> cases routingMode <;> simp [Arrow3d.Render, hp]
  · cases hp : screen.isPerspective <;> cases routingMode <;> simp [Arrow3d.Render, hp]
  · cases hp : screen.isPerspective <;> cases routingMode <;> simp [Arrow3d.Render, hp]

/-! ## Size of the arrow -/

theorem scaleMultiplier_bounds (t : ℚ) (h0 : 0 ≤ t) (h1 : t ≤ 1) :
    arrow3d.kArrow3dScaleMin ≤ Arrow3d.scaleMultiplier t ∧
    Arrow3d.scaleMultiplier t ≤ arrow3d.kArrow3dScaleMax := by
  unfold Arrow3d.scaleMultiplier arrow3d.kArrow3dScaleMin arrow3d.kArrow3dScaleMax
  constructor <;> linarith

/-- C12: the arrow size computed by `CalculateTransform` is
`kArrowSize * visualScale * scaleFactor` in flat mode and that value times
`m(t) = scaleMin * (1 - t) + scaleMax * t` in perspective mode, with
`scaleMin = 1`, `scaleMax = 2.2` and `t` the normalized zoom. For every `t` in
`[0,1]` the multiplier lies between `scaleMin` and `scaleMax`, and it is
`scaleMin` at `t = 0`; the normalized zoom lies in `[0,1]` and is 0 for a view
scale whose zoom level is the minimum-zoom threshold. -/
theorem arrowScale_interpolates (env : Surroundings) (screen : ScreenBase) (scaleFactor : ℚ) :
    (Arrow3d.arrowScale env { screen with isPerspective := false } scaleFactor =
      arrow3d.kArrowSize * env.GetVisualScale * scaleFactor) ∧
    (Arrow3d.arrowScale env { screen with isPerspective := true } scaleFactor =
      arrow3d.kArrowSize * env.GetVisualScale * scaleFactor *
        Arrow3d.scaleMultiplier
          (env.GetNormalizedZoomLevel screen.GetScale arrow3d.kArrow3dMinZoom)) ∧
    (∀ t, Arrow3d.scaleMultiplier t =
      arrow3d.kArrow3dScaleMin * (1 - t) + arrow3d.kArrow3dScaleMax * t) ∧
    arrow3d.kArrow3dScaleMin = 1 ∧ arrow3d.kArrow3dScaleMax = 22 / 10 ∧
    (∀ t, 0 ≤ t → t ≤ 1 →
      arrow3d.kArrow3dScaleMin ≤ Arrow3d.scaleMultiplier t ∧
      Arrow3d.scaleMultiplier t ≤ arrow3d.kArrow3dScaleMax) ∧
    Arrow3d.scaleMultiplier 0 = arrow3d.kArrow3dScaleMin ∧
    (∀ (zoomLevel : ℚ → ℚ) (maxZoom scale : ℚ),
      0 ≤ GetNormalizedZoomLevel zoomLevel maxZoom scale arrow3d.kArrow3dMinZoom ∧
      GetNormalizedZoomLevel zoomLevel maxZoom scale arrow3d.kArrow3dMinZoom ≤ 1 ∧
      (zoomLevel scale = arrow3d.kArrow3dMinZoom →
        GetNormalizedZoomLevel zoomLevel maxZoom scale arrow3d.kArrow3dMinZoom = 0 ∧
        Arrow3d.scaleMultiplier
          (GetNormalizedZoomLevel zoomLevel maxZoom scale arrow3d.kArrow3dMinZoom) =
          arrow3d.kArrow3dScaleMin)) := by
  refine ⟨?_, ?_, fun t => rfl, rfl, rfl, fun t h0 h1 => scaleMultiplier_bounds t h0 h1, ?_, ?_⟩
  · simp only [Arrow3d.arrowScale, Bool.false_eq_true, if_false]
    ring
  · simp only [Arrow3d.arrowScale, if_true]
    ring
  · simp [Arrow3d.scaleMultiplier]
  · intro zoomLevel maxZoom scale
    have hmin : ∀ x : ℚ, 0 ≤ max 0 (min 1 x) ∧ max 0 (min 1 x) ≤ 1 := fun x =>
      ⟨le_max_left _ _, max_le (by norm_num) (min_le_left _ _)⟩
    refine ⟨(hmin _).1, (hmin _).2, fun hz => ?_⟩
    have h0 : GetNormalizedZoomLevel zoomLevel maxZoom scale arrow3d.kArrow3dMinZoom = 0 := by
      simp [GetNormalizedZoomLevel, hz]
    exact ⟨h0, by rw [h0]; simp [Arrow3d.scaleMultiplier]⟩

/-- C17: `GetMaxBottomSize() = kArrowSize * kArrow3dScaleMax * kOutlineScale`
bounds the arrow size per unit of visual scale of every pass `Render` issues:
for both view modes and every normalized zoom `t` in `[0,1]`,
`kArrowSize * scaleFactor * (1 or m(t))` is at most `GetMaxBottomSize()`, and
so is the arrow size `CalculateTransform` computes at visual scale 1. The
bound is reached by the outline-scaled pass in perspective mode at `t = 1`. -/
theorem GetMaxBottomSize_bounds_passes {α : Type} (self : Arrow3d α) (screen : ScreenBase)
    (routingMode : Bool) (pass : RenderPass) (hpass : pass ∈ self.Render screen routingMode)
    (t : ℚ) (h0 : 0 ≤ t) (h1 : t ≤ 1) :
    Arrow3d.GetMaxBottomSize =
      arrow3d.kArrowSize * arrow3d.kArrow3dScaleMax * kOutlineScale ∧
    (pass.scaleFactor = 1 ∨ pass.scaleFactor = kOutlineScale) ∧
    arrow3d.kArrowSize * pass.scaleFactor * 1 ≤ Arrow3d.GetMaxBottomSize ∧
    arrow3d.kArrowSize * pass.scaleFactor * Arrow3d.scaleMultiplier t ≤
      Arrow3d.GetMaxBottomSize ∧
    (∀ (cos sin : ℚ → ℚ) (view : ScreenBase),
      Arrow3d.arrowScale ⟨cos, sin, 1, fun _ _ => t⟩ view pass.scaleFactor ≤
        Arrow3d.GetMaxBottomSize) ∧
    arrow3d.kArrowSize * kOutlineScale * Arrow3d.scaleMultiplier 1 = Arrow3d.GetMaxBottomSize ∧
    (∃ outline ∈ self.Render { screen with isPerspective := true } true,
      outline.scaleFactor = kOutlineScale ∧
      ∀ (cos sin : ℚ → ℚ),
        Arrow3d.arrowScale ⟨cos, sin, 1, fun _ _ => 1⟩ { screen with isPerspective := true }
          outline.scaleFactor = Arrow3d.GetMaxBottomSize) := by
  have hsf : pass.scaleFactor = 1 ∨ pass.scaleFactor = kOutlineScale := by
    simp only [Arrow3d.Render, List.mem_append, List.mem_singleton] at hpass
    rcases hpass with (hp | hp) | hp
    · split at hp
      · rw [List.mem_singleton] at hp
        subst hp
        cases routingMode <;> simp
      · simp at hp
    · split at hp
      · rw [List.mem_singleton] at hp
        subst hp
        exact Or.inr rfl
      · simp at hp
    · subst hp
      exact Or.inl rfl
  have hm := scaleMultiplier_bounds t h0 h1
  have hmax : Arrow3d.GetMaxBottomSize = 12 * (22 / 10) * (12 / 10) := by
    simp [Arrow3d.GetMaxBottomSize, arrow3d.kArrowSize, arrow3d.kArrow3dScaleMax, kOutlineScale]
  have hmin : arrow3d.kArrow3dScaleMin = 1 := rfl
  have hmx : arrow3d.kArrow3dScaleMax = 22 / 10 := rfl
  have hk : arrow3d.kArrowSize = 12 := rfl
  have ho : kOutlineScale = 12 / 10 := rfl
  rw [hmin, hmx] at hm
  have hflat : arrow3d.kArrowSize * pass.scaleFactor * 1 ≤ Arrow3d.GetMaxBottomSize := by
    rw [hmax, hk]
    rcases hsf with h | h <;> rw [h] <;> norm_num [ho]
  have hpersp : arrow3d.kArrowSize * pass.scaleFactor * Arrow3d.scaleMultiplier t ≤
      Arrow3d.GetMaxBottomSize := by
    rw [hmax, hk]
    rcases hsf with h | h <;> rw [h]
    · nlinarith [hm.1, hm.2]
    · rw [ho]; nlinarith [hm.1, hm.2]
  refine ⟨by rw [hmax, hk, hmx, ho], hsf, hflat, hpersp, ?_, ?_, ?_⟩
  · intro cos sin view
    simp only [Arrow3d.arrowScale]
    split
    · calc 1 * arrow3d.kArrowSize * pass.scaleFactor * Arrow3d.scaleMultiplier t
          = arrow3d.kArrowSize * pass.scaleFactor * Arrow3d.scaleMultiplier t := by ring
        _ ≤ Arrow3d.GetMaxBottomSize := hpersp
    · calc 1 * arrow3d.kArrowSize * pass.scaleFactor
          = arrow3d.kArrowSize * pass.scaleFactor * 1 := by ring
        _ ≤ Arrow3d.GetMaxBottomSize := hflat
  · rw [hmax, hk, ho]
    norm_num [Arrow3d.scaleMultiplier, hmin, hmx]
  · refine ⟨({ mesh := MeshId.m_shadowMesh, program := gpu.Program.Arrow3dOutline,
                color := kArrow3DOutlineColor, dz := 0, scaleFactor := kOutlineScale } :
      RenderPass), ?_, rfl, ?_⟩
    · simp [Arrow3d.Render]
    · intro cos sin
      simp only [Arrow3d.arrowScale, if_true]
      rw [hmax, hk, ho]
      norm_num [Arrow3d.scaleMultiplier, hmin, hmx]

/-- C17 at the outline pass of a routing render in a flat view, at `t = 1/2`. -/
theorem GetMaxBottomSize_bounds_passes_witness :
    arrow3d.kArrowSize * kOutlineScale * Arrow3d.scaleMultiplier (1 / 2) ≤
      Arrow3d.GetMaxBottomSize ∧
    Arrow3d.GetMaxBottomSize = 792 / 25 := by
  have h := GetMaxBottomSize_bounds_passes (Arrow3d.initial : Arrow3d ℤ)
    ⟨false, 1, 0, 200, 100, 1, id, fun _ _ => 0⟩ true
    ({ mesh := MeshId.m_shadowMesh, program := gpu.Program.Arrow3dOutline,
       color := kArrow3DOutlineColor, dz := 0, scaleFactor := kOutlineScale } : RenderPass)
    (by simp [Arrow3d.Render]) (1 / 2) (by norm_num) (by norm_num)
  refine ⟨h.2.2.2.1, ?_⟩
  rw [h.1]
  norm_num [arrow3d.kArrowSize, arrow3d.kArrow3dScaleMax, kOutlineScale]

/-! ## Setters -/

theorem lastArgument_nil {β : Type} (pick : Arrow3d.Setter → Option β) (initial : β) :
    Arrow3d.lastArgument pick [] initial = initial := rfl

theorem lastArgument_cons {β : Type} (pick : Arrow3d.Setter → Option β) (c : Arrow3d.Setter)
    (calls : List Arrow3d.Setter) (initial : β) :
    Arrow3d.lastArgument pick (c :: calls) initial =
      Arrow3d.lastArgument pick calls ((pick c).getD initial) := by
  unfold Arrow3d.lastArgument
  rw [List.reverse_cons, List.findSome?_append]
  cases h : List.findSome? pick calls.reverse with
  | some v => simp
  | none => cases hc : pick c <;> simp [hc]

/-- The marker a sequence of setter calls leaves: every field holds the
argument of the last call to its setter, or its former value. -/
theorem callAll_eq {α : Type} (self : Arrow3d α) (calls : List Arrow3d.Setter) :
    self.callAll calls =
      { m_arrowMesh := self.m_arrowMesh
        m_shadowMesh := self.m_shadowMesh
        m_state :=
          { self.m_state with
            colorTexture := Arrow3d.lastArgument Arrow3d.Setter.textureArgument calls
              self.m_state.colorTexture }
        m_position := Arrow3d.lastArgument Arrow3d.Setter.positionArgument calls self.m_position
        m_azimuth := Arrow3d.lastArgument Arrow3d.Setter.azimuthArgument calls self.m_azimuth
        m_obsoletePosition := Arrow3d.lastArgument Arrow3d.Setter.obsoleteArgument calls
          self.m_obsoletePosition
        m_meshOffset := Arrow3d.lastArgument Arrow3d.Setter.offsetArgument calls self.m_meshOffset
        m_meshEulerAngles := Arrow3d.lastArgument Arrow3d.Setter.rotationArgument calls
          self.m_meshEulerAngles
        m_meshScale := Arrow3d.lastArgument Arrow3d.Setter.scaleArgument calls
          self.m_meshScale } := by
  induction calls generalizing self with
  | nil => simp only [Arrow3d.callAll, List.foldl_nil, lastArgument_nil]
  | cons c cs ih =>
    have hstep : self.callAll (c :: cs) = (self.call c).callAll cs := rfl
    rw [hstep, ih]
    simp only [lastArgument_cons]
    cases c <;> rfl

/-- C13: each placement setter replaces its own field with the argument and
leaves every other field of the marker unchanged. After any sequence of setter
calls each placement field holds the argument of the last call to its setter,
or its initial value when there was none, and these are the values the next
`CalculateTransform` and `Render` read. -/
theorem setters_replace_their_field {α : Type} (self : Arrow3d α)
    (calls : List Arrow3d.Setter) :
    (∀ position, self.SetPosition position =
      { m_arrowMesh := self.m_arrowMesh, m_shadowMesh := self.m_shadowMesh,
        m_state := self.m_state, m_position := position, m_azimuth := self.m_azimuth,
        m_obsoletePosition := self.m_obsoletePosition, m_meshOffset := self.m_meshOffset,
        m_meshEulerAngles := self.m_meshEulerAngles, m_meshScale := self.m_meshScale }) ∧
    (∀ azimuth, self.SetAzimuth azimuth =
      { m_arrowMesh := self.m_arrowMesh, m_shadowMesh := self.m_shadowMesh,
        m_state := self.m_state, m_position := self.m_position, m_azimuth := azimuth,
        m_obsoletePosition := self.m_obsoletePosition, m_meshOffset := self.m_meshOffset,
        m_meshEulerAngles := self.m_meshEulerAngles, m_meshScale := self.m_meshScale }) ∧
    (∀ obsolete, self.SetPositionObsolete obsolete =
      { m_arrowMesh := self.m_arrowMesh, m_shadowMesh := self.m_shadowMesh,
        m_state := self.m_state, m_position := self.m_position, m_azimuth := self.m_azimuth,
        m_obsoletePosition := obsolete, m_meshOffset := self.m_meshOffset,
        m_meshEulerAngles := self.m_meshEulerAngles, m_meshScale := self.m_meshScale }) ∧
    (∀ offset, self.SetMeshOffset offset =
      { m_arrowMesh := self.m_arrowMesh, m_shadowMesh := self.m_shadowMesh,
        m_state := self.m_state, m_position := self.m_position, m_azimuth := self.m_azimuth,
        m_obsoletePosition := self.m_obsoletePosition, m_meshOffset := offset,
        m_meshEulerAngles := self.m_meshEulerAngles, m_meshScale := self.m_meshScale }) ∧
    (∀ eulerAngles, self.SetMeshRotation eulerAngles =
      { m_arrowMesh := self.m_arrowMesh, m_shadowMesh := self.m_shadowMesh,
        m_state := self.m_state, m_position := self.m_position, m_azimuth := self.m_azimuth,
        m_obsoletePosition := self.m_obsoletePosition, m_meshOffset := self.m_meshOffset,
        m_meshEulerAngles := eulerAngles, m_meshScale := self.m_meshScale }) ∧
    (∀ scale, self.SetMeshScale scale =
      { m_arrowMesh := self.m_arrowMesh, m_shadowMesh := self.m_shadowMesh,
        m_state := self.m_state, m_position := self.m_position, m_azimuth := self.m_azimuth,
        m_obsoletePosition := self.m_obsoletePosition, m_meshOffset := self.m_meshOffset,
        m_meshEulerAngles := self.m_meshEulerAngles, m_meshScale := scale }) ∧
    ((self.callAll calls).m_position =
        Arrow3d.lastArgument Arrow3d.Setter.positionArgument calls self.m_position ∧
      (self.callAll calls).m_azimuth =
        Arrow3d.lastArgument Arrow3d.Setter.azimuthArgument calls self.m_azimuth ∧
      (self.callAll calls).m_obsoletePosition =
        Arrow3d.lastArgument Arrow3d.Setter.obsoleteArgument calls self.m_obsoletePosition ∧
      (self.callAll calls).m_meshOffset =
        Arrow3d.lastArgument Arrow3d.Setter.offsetArgument calls self.m_meshOffset ∧
      (self.callAll calls).m_meshEulerAngles =
        Arrow3d.lastArgument Arrow3d.Setter.rotationArgument calls self.m_meshEulerAngles ∧
      (self.callAll calls).m_meshScale =
        Arrow3d.lastArgument Arrow3d.Setter.scaleArgument calls self.m_meshScale ∧
      (self.callAll calls).m_arrowMesh = self.m_arrowMesh ∧
      (self.callAll calls).m_shadowMesh = self.m_shadowMesh) ∧
    (∀ env screen dz scaleFactor apiVersion,
      (self.callAll calls).CalculateTransform env screen dz scaleFactor apiVersion =
        Arrow3d.CalculateTransform env
          { self with
            m_position :=
              Arrow3d.lastArgument Arrow3d.Setter.positionArgument calls self.m_position
            m_azimuth :=
              Arrow3d.lastArgument Arrow3d.Setter.azimuthArgument calls self.m_azimuth
            m_meshOffset :=
              Arrow3d.lastArgument Arrow3d.Setter.offsetArgument calls self.m_meshOffset
            m_meshEulerAngles :=
              Arrow3d.lastArgument Arrow3d.Setter.rotationArgument calls self.m_meshEulerAngles
            m_meshScale :=
              Arrow3d.lastArgument Arrow3d.Setter.scaleArgument calls self.m_meshScale }
          screen dz scaleFactor apiVersion) ∧
    (∀ screen routingMode,
      (self.callAll calls).Render screen routingMode =
        Arrow3d.Render
          { self with
            m_obsoletePosition :=
              Arrow3d.lastArgument Arrow3d.Setter.obsoleteArgument calls
                self.m_obsoletePosition }
          screen routingMode) := by
  refine ⟨fun _ => rfl, fun _ => rfl, fun _ => rfl, fun _ => rfl, fun _ => rfl, fun _ => rfl,
    ?_, ?_, ?_⟩
  · rw [callAll_eq]
    exact ⟨rfl, rfl, rfl, rfl, rfl, rfl, rfl, rfl⟩
  · intro env screen dz scaleFactor apiVersion
    rw [callAll_eq]
    rfl
  · intro screen routingMode
    rw [callAll_eq]
    rfl

/-! ## Descriptors of the passes -/

/-- C14: every pass `Render` issues carries its descriptor. The shadow pass
draws the shadow mesh with the shadow program and colour, the z-bias 0.05,
which is positive, and the outline scale when `routingMode` is set and 1
otherwise. The outline pass draws the shadow mesh with the outline program and
colour, zero z-bias and the outline scale. The marker pass draws the marker
mesh with zero z-bias and scale 1, in the obsolete colour exactly when the
obsolete flag is set and in the normal colour otherwise; the two colours are
distinct palette entries. Each pass is issued under its gate. -/
theorem Render_pass_descriptors {α : Type} (self : Arrow3d α) (screen : ScreenBase)
    (routingMode : Bool) :
    (∀ pass ∈ self.Render screen routingMode,
      (pass.program = gpu.Program.Arrow3dShadow →
        pass.mesh = MeshId.m_shadowMesh ∧ pass.color = kArrow3DShadowColor ∧
        pass.dz = 5 / 100 ∧ 0 < pass.dz ∧
        pass.scaleFactor = (if routingMode then kOutlineScale else 1)) ∧
      (pass.program = gpu.Program.Arrow3dOutline →
        pass.mesh = MeshId.m_shadowMesh ∧ pass.mesh ≠ MeshId.m_arrowMesh ∧
        pass.color = kArrow3DOutlineColor ∧ pass.dz = 0 ∧ pass.scaleFactor = kOutlineScale) ∧
      (pass.program = gpu.Program.Arrow3d →
        pass.mesh = MeshId.m_arrowMesh ∧ pass.dz = 0 ∧ pass.scaleFactor = 1 ∧
        pass.color =
          (if self.m_obsoletePosition then kArrow3DObsoleteColor else kArrow3DColor))) ∧
    kArrow3DObsoleteColor ≠ kArrow3DColor ∧
    (screen.isPerspective = true →
      ∃ pass ∈ self.Render screen routingMode, pass.program = gpu.Program.Arrow3dShadow) ∧
    (routingMode = true →
      ∃ pass ∈ self.Render screen routingMode, pass.program = gpu.Program.Arrow3dOutline) ∧
    (∃ pass ∈ self.Render screen routingMode, pass.program = gpu.Program.Arrow3d) := by
  refine ⟨?_, by decide, ?_, ?_, ?_⟩
  · intro pass hpass
    simp only [Arrow3d.Render, List.mem_append, List.mem_singleton] at hpass
    rcases hpass with (hp | hp) | hp
    · split at hp
      · rw [List.mem_singleton] at hp
        subst hp
        exact ⟨fun _ => ⟨rfl, rfl, rfl, by norm_num, rfl⟩, fun h => by simp at h,
          fun h => by simp at h⟩
      · simp at hp
    · split at hp
      · rw [List.mem_singleton] at hp
        subst hp
        exact ⟨fun h => by simp at h, fun _ => ⟨rfl, by decide, rfl, rfl, rfl⟩,
          fun h => by simp at h⟩
      · simp at hp
    · subst hp
      exact ⟨fun h => by simp at h, fun h => by simp at h, fun _ => ⟨rfl, rfl, rfl, rfl⟩⟩
  · intro hp
    exact ⟨⟨MeshId.m_shadowMesh, gpu.Program.Arrow3dShadow, kArrow3DShadowColor, 5 / 100,
      if routingMode then kOutlineScale else 1⟩, by simp [Arrow3d.Render, hp], rfl⟩
  · intro hr
    exact ⟨⟨MeshId.m_shadowMesh, gpu.Program.Arrow3dOutline, kArrow3DOutlineColor, 0,
      kOutlineScale⟩, by simp [Arrow3d.Render, hr], rfl⟩
  · exact ⟨⟨MeshId.m_arrowMesh, gpu.Program.Arrow3d,
      if self.m_obsoletePosition then kArrow3DObsoleteColor else kArrow3DColor, 0, 1⟩,
      by simp [Arrow3d.Render], rfl⟩

/-! ## Branches of `CalculateTransform` -/

/-- C16: `CalculateTransform` applies no depth remap when the view is
perspective or the API version is not the one with a `[0,1]` z range. For a
perspective view the result is the 3D projection matrix of the view, its 16
floats copied into a `glm::mat4`, times the model matrix: with `P(k, r)` the
entry of `screen.Pto3dMatrix()` in row `k` and column `r`, the entry of the
result in row `r` and column `c` is the sum over `k` of `P(k, r) * M(k, c)`, so
that the image of a point `v` is the row vector `M * v` times the matrix of the
view. That result is the same for every two API versions. For a flat view
under an API version other than `Metal` the result is the model matrix. -/
theorem CalculateTransform_without_remap {α : Type} (env : Surroundings) (self : Arrow3d α)
    (screen : ScreenBase) (dz scaleFactor : ℚ) (apiVersion other : dp.ApiVersion) :
    (∀ r c,
      self.CalculateTransform env { screen with isPerspective := true } dz scaleFactor
          apiVersion r c =
        screen.Pto3dMatrix 0 r *
            self.modelTransform env { screen with isPerspective := true } dz scaleFactor 0 c +
          screen.Pto3dMatrix 1 r *
            self.modelTransform env { screen with isPerspective := true } dz scaleFactor 1 c +
          screen.Pto3dMatrix 2 r *
            self.modelTransform env { screen with isPerspective := true } dz scaleFactor 2 c +
          screen.Pto3dMatrix 3 r *
            self.modelTransform env { screen with isPerspective := true } dz scaleFactor 3 c) ∧
    (∀ (v : glm.vec4) r,
      glm.mulVec
          (self.CalculateTransform env { screen with isPerspective := true } dz scaleFactor
            apiVersion) v r =
        glm.mulVec (self.modelTransform env { screen with isPerspective := true } dz
            scaleFactor) v 0 * screen.Pto3dMatrix 0 r +
          glm.mulVec (self.modelTransform env { screen with isPerspective := true } dz
            scaleFactor) v 1 * screen.Pto3dMatrix 1 r +
          glm.mulVec (self.modelTransform env { screen with isPerspective := true } dz
            scaleFactor) v 2 * screen.Pto3dMatrix 2 r +
          glm.mulVec (self.modelTransform env { screen with isPerspective := true } dz
            scaleFactor) v 3 * screen.Pto3dMatrix 3 r) ∧
    (self.CalculateTransform env { screen with isPerspective := true } dz scaleFactor
        apiVersion =
      glm.mul (fun r c => screen.Pto3dMatrix c r)
        (self.modelTransform env { screen with isPerspective := true } dz scaleFactor)) ∧
    (self.CalculateTransform env { screen with isPerspective := true } dz scaleFactor
        apiVersion =
      self.CalculateTransform env { screen with isPerspective := true } dz scaleFactor other) ∧
    (apiVersion ≠ dp.ApiVersion.Metal →
      self.CalculateTransform env { screen with isPerspective := false } dz scaleFactor
          apiVersion =
        self.modelTransform env { screen with isPerspective := false } dz scaleFactor) := by
  refine ⟨fun r c => rfl, fun v r => ?_, rfl, rfl, fun h => ?_⟩
  · simp only [Arrow3d.CalculateTransform, if_true, glm.mulVec, glm.mul, Arrow3d.pTo3dView]
    ring
  · simp only [Arrow3d.CalculateTransform, Bool.false_eq_true, if_false, if_neg h]

/-! ## The model matrix -/

theorem modelTransform_row_w {α : Type} (env : Surroundings) (self : Arrow3d α)
    (screen : ScreenBase) (dz scaleFactor : ℚ) :
    self.modelTransform env screen dz scaleFactor 3 0 = 0 ∧
    self.modelTransform env screen dz scaleFactor 3 1 = 0 ∧
    self.modelTransform env screen dz scaleFactor 3 2 = 0 ∧
    self.modelTransform env screen dz scaleFactor 3 3 = 1 := by
  simp [Arrow3d.modelTransform, glm.mul, glm.translate, glm.scale, Arrow3d.rotationMatrix,
    glm.mat4_cast, Arrow3d.scaleMatrix, glm.rows, glm.components]

theorem modelTransform_column_w {α : Type} (env : Surroundings) (self : Arrow3d α)
    (screen : ScreenBase) (dz scaleFactor : ℚ) :
    self.modelTransform env screen dz scaleFactor 0 3 =
      (Arrow3d.postProjectionTranslation self screen dz).1 +
        (Arrow3d.postProjectionScale screen).1 *
          (Arrow3d.arrowScale env screen scaleFactor * self.m_meshScale.1) *
          self.m_meshOffset.1 ∧
    self.modelTransform env screen dz scaleFactor 1 3 =
      (Arrow3d.postProjectionTranslation self screen dz).2.1 +
        (Arrow3d.postProjectionScale screen).2.1 *
          (Arrow3d.arrowScale env screen scaleFactor * self.m_meshScale.2.1) *
          self.m_meshOffset.2.1 ∧
    self.modelTransform env screen dz scaleFactor 2 3 =
      (Arrow3d.postProjectionTranslation self screen dz).2.2 +
        (Arrow3d.postProjectionScale screen).2.2 *
          ((if screen.isPerspective then Arrow3d.arrowScale env screen scaleFactor else 1) *
            self.m_meshScale.2.2) *
          self.m_meshOffset.2.2 := by
  refine ⟨?_, ?_, ?_⟩ <;>
  · simp [Arrow3d.modelTransform, glm.mul, glm.translate, glm.scale, Arrow3d.rotationMatrix,
      glm.mat4_cast, Arrow3d.scaleMatrix, glm.mulVec3, glm.rows, glm.components]
    ring

/-- The image of the mesh origin is the last column of the matrix. -/
theorem mulVec_origin (m : glm.mat4) (r : Fin 4) :
    glm.mulVec m (glm.components 0 0 0 1) r = m r 3 := by
  simp [glm.mulVec, glm.components]

/-- The two assignments of the `Metal` branch, applied to a vector. -/
theorem metal_edit_mulVec (m : glm.mat4) (v : glm.vec4) :
    (∀ r c, glm.setEntry (glm.setEntry m 3 2 (m 2 3 + 1 / 2)) 2 2
        (glm.setEntry m 3 2 (m 2 3 + 1 / 2) 2 2 * (1 / 2)) r c =
      if r = 2 ∧ c = 3 then m 2 3 + 1 / 2 else if r = 2 ∧ c = 2 then m 2 2 * (1 / 2)
      else m r c) ∧
    (∀ r, r ≠ 2 → glm.mulVec (glm.setEntry (glm.setEntry m 3 2 (m 2 3 + 1 / 2)) 2 2
        (glm.setEntry m 3 2 (m 2 3 + 1 / 2) 2 2 * (1 / 2))) v r = glm.mulVec m v r) ∧
    glm.mulVec (glm.setEntry (glm.setEntry m 3 2 (m 2 3 + 1 / 2)) 2 2
        (glm.setEntry m 3 2 (m 2 3 + 1 / 2) 2 2 * (1 / 2))) v 2 =
      glm.mulVec m v 2 - 1 / 2 * (m 2 2 * v 2) + 1 / 2 * v 3 := by
  refine ⟨?_, ?_, ?_⟩
  · intro r c
    fin_cases r <;> fin_cases c <;> simp [glm.setEntry]
  · intro r hr
    fin_cases r <;> simp [glm.mulVec, glm.setEntry] at hr ⊢
  · simp [glm.mulVec, glm.setEntry]
    ring

/-- C11 (defect): a flat view under `Metal` and the sample marker after
`SetMeshOffset({0, 0, 1})`, drawn with `dz = 0` and scale factor 1. The mesh
origin has depth 1/10 and `w = 1` under the model matrix, so the remap
`0.5 * depth + 0.5 * w` puts it at depth 11/20; the matrix `CalculateTransform`
returns puts it at depth 3/5, because the z-translation entry gets 0.5 added
without being halved. -/
theorem CalculateTransform_metal_is_no_remap :
    glm.mulVec (sampleOffsetMarker.modelTransform sampleSurroundings sampleFlatScreen 0 1)
      (glm.components 0 0 0 1) 2 = 1 / 10 ∧
    glm.mulVec (sampleOffsetMarker.modelTransform sampleSurroundings sampleFlatScreen 0 1)
      (glm.components 0 0 0 1) 3 = 1 ∧
    glm.mulVec
      (sampleOffsetMarker.CalculateTransform sampleSurroundings sampleFlatScreen 0 1
        dp.ApiVersion.Metal)
      (glm.components 0 0 0 1) 2 = 3 / 5 ∧
    (3 / 5 : ℚ) ≠ 1 / 2 * (1 / 10) + 1 / 2 * 1 := by
  refine ⟨?_, ?_, ?_, by norm_num⟩
  · rw [mulVec_origin, (modelTransform_column_w _ _ _ _ _).2.2]
    norm_num [Arrow3d.postProjectionTranslation, Arrow3d.postProjectionScale, sampleFlatScreen,
      sampleOffsetMarker, sampleMarker, Arrow3d.SetMeshOffset, Arrow3d.SetPosition,
      Arrow3d.initial]
  · rw [mulVec_origin, (modelTransform_row_w _ _ _ _ _).2.2.2]
  · have hflat : sampleFlatScreen.isPerspective = false := rfl
    simp only [Arrow3d.CalculateTransform, hflat, Bool.false_eq_true, if_false, if_true]
    rw [(metal_edit_mulVec _ _).2.2, mulVec_origin, (modelTransform_column_w _ _ _ _ _).2.2]
    norm_num [Arrow3d.postProjectionTranslation, Arrow3d.postProjectionScale, sampleFlatScreen,
      sampleOffsetMarker, sampleMarker, Arrow3d.SetMeshOffset, Arrow3d.SetPosition,
      Arrow3d.initial, glm.components]

/-- What the two assignments under `Metal` make of the model matrix `M` in flat
mode: the z-translation entry is increased by 0.5, the z-scale entry is halved
and the other entries stay. The x, y and w of `result * v` are those of
`M * v`, and the depth of `result * v` is `0.5 * depth + 0.5 * w` of `M * v`
when the z row of `M` has no x, y and translation entry, as it has for a marker
without tilt and roll and with zero z offset drawn with `dz = 0`. -/
theorem CalculateTransform_metal_flat {α : Type} (env : Surroundings) (self : Arrow3d α)
    (screen : ScreenBase) (dz scaleFactor : ℚ) (v : glm.vec4) :
    (∀ r c,
      self.CalculateTransform env { screen with isPerspective := false } dz scaleFactor
          dp.ApiVersion.Metal r c =
        if r = 2 ∧ c = 3 then
          self.modelTransform env { screen with isPerspective := false } dz scaleFactor 2 3 +
            1 / 2
        else if r = 2 ∧ c = 2 then
          self.modelTransform env { screen with isPerspective := false } dz scaleFactor 2 2 *
            (1 / 2)
        else self.modelTransform env { screen with isPerspective := false } dz scaleFactor r c) ∧
    (∀ r, r ≠ 2 →
      glm.mulVec
          (self.CalculateTransform env { screen with isPerspective := false } dz scaleFactor
            dp.ApiVersion.Metal) v r =
        glm.mulVec
          (self.modelTransform env { screen with isPerspective := false } dz scaleFactor) v r) ∧
    glm.mulVec (self.modelTransform env { screen with isPerspective := false } dz scaleFactor)
      v 3 = v 3 ∧
    glm.mulVec
        (self.CalculateTransform env { screen with isPerspective := false } dz scaleFactor
          dp.ApiVersion.Metal) v 2 =
      glm.mulVec (self.modelTransform env { screen with isPerspective := false } dz scaleFactor)
          v 2 -
        1 / 2 *
          (self.modelTransform env { screen with isPerspective := false } dz scaleFactor 2 2 *
            v 2) +
        1 / 2 * v 3 ∧
    (self.modelTransform env { screen with isPerspective := false } dz scaleFactor 2 0 = 0 →
      self.modelTransform env { screen with isPerspective := false } dz scaleFactor 2 1 = 0 →
      self.modelTransform env { screen with isPerspective := false } dz scaleFactor 2 3 = 0 →
      glm.mulVec
          (self.CalculateTransform env { screen with isPerspective := false } dz scaleFactor
            dp.ApiVersion.Metal) v 2 =
        1 / 2 *
            glm.mulVec
              (self.modelTransform env { screen with isPerspective := false } dz scaleFactor)
              v 2 +
          1 / 2 *
            glm.mulVec
              (self.modelTransform env { screen with isPerspective := false } dz scaleFactor)
              v 3) ∧
    (env.cos 0 = 1 → env.sin 0 = 0 → self.m_meshEulerAngles.1 = 0 →
      self.m_meshEulerAngles.2.1 = 0 → self.m_meshOffset.2.2 = 0 → dz = 0 →
      self.modelTransform env { screen with isPerspective := false } dz scaleFactor 2 0 = 0 ∧
      self.modelTransform env { screen with isPerspective := false } dz scaleFactor 2 1 = 0 ∧
      self.modelTransform env { screen with isPerspective := false } dz scaleFactor 2 3 = 0) := by
  have hw : glm.mulVec
      (self.modelTransform env { screen with isPerspective := false } dz scaleFactor) v 3 =
      v 3 := by
    obtain ⟨h0, h1, h2, h3⟩ :=
      modelTransform_row_w env self { screen with isPerspective := false } dz scaleFactor
    simp only [glm.mulVec, h0, h1, h2, h3]
    ring
  have hR : self.CalculateTransform env { screen with isPerspective := false } dz scaleFactor
      dp.ApiVersion.Metal =
      glm.setEntry
        (glm.setEntry
          (self.modelTransform env { screen with isPerspective := false } dz scaleFactor) 3 2
          (self.modelTransform env { screen with isPerspective := false } dz scaleFactor 2 3 +
            1 / 2)) 2 2
        (glm.setEntry
          (self.modelTransform env { screen with isPerspective := false } dz scaleFactor) 3 2
          (self.modelTransform env { screen with isPerspective := false } dz scaleFactor 2 3 +
            1 / 2) 2 2 * (1 / 2)) := by
    simp only [Arrow3d.CalculateTransform, Bool.false_eq_true, if_false, if_true]
  obtain ⟨e1, e2, e3⟩ := metal_edit_mulVec
    (self.modelTransform env { screen with isPerspective := false } dz scaleFactor) v
  refine ⟨fun r c => by rw [hR]; exact e1 r c, fun r hr => by rw [hR]; exact e2 r hr, hw,
    by rw [hR]; exact e3, ?_, ?_⟩
  · intro h0 h1 h3
    rw [hR, e3, hw]
    simp only [glm.mulVec, h0, h1, h3]
    ring
  · intro hc hs hx hy hz hdz
    refine ⟨?_, ?_, ?_⟩
    · simp [Arrow3d.modelTransform, glm.mul, glm.translate, glm.scale, Arrow3d.rotationMatrix,
        glm.mat4_cast, Arrow3d.scaleMatrix, glm.mulVec3, glm.rows, glm.components,
        glm.quatMul, glm.angleAxis, hx, hy, hc, hs]
    · simp [Arrow3d.modelTransform, glm.mul, glm.translate, glm.scale, Arrow3d.rotationMatrix,
        glm.mat4_cast, Arrow3d.scaleMatrix, glm.mulVec3, glm.rows, glm.components,
        glm.quatMul, glm.angleAxis, hx, hy, hc, hs]
    · rw [(modelTransform_column_w _ _ _ _ _).2.2]
      simp [Arrow3d.postProjectionTranslation, hz, hdz]

/-- The sample marker with default placement in the sample flat view: the
depth of the image of the point (1, 2, 3, 1) is remapped. -/
theorem CalculateTransform_metal_flat_witness :
    glm.mulVec
        (sampleMarker.CalculateTransform sampleSurroundings sampleFlatScreen 0 1
          dp.ApiVersion.Metal)
        (glm.components 1 2 3 1) 2 =
      1 / 2 *
          glm.mulVec (sampleMarker.modelTransform sampleSurroundings sampleFlatScreen 0 1)
            (glm.components 1 2 3 1) 2 +
        1 / 2 *
          glm.mulVec (sampleMarker.modelTransform sampleSurroundings sampleFlatScreen 0 1)
            (glm.components 1 2 3 1) 3 := by
  have h := CalculateTransform_metal_flat sampleSurroundings sampleMarker sampleFlatScreen 0 1
    (glm.components 1 2 3 1)
  obtain ⟨h0, h1, h3⟩ := h.2.2.2.2.2 rfl rfl rfl rfl rfl rfl
  exact h.2.2.2.2.1 h0 h1 h3

/-- C15 (as stated, refuted): the sample flat view, visual scale 1, scale
factor 1 and the sample marker after `SetMeshOffset({0, 0, 1})`. The arrow size
is 12 and the z post-projection factor 1/10, so the offset scaled by the
post-projection factors and by size times mesh scale would put the origin at
depth 12/10; the model matrix puts it at depth 1/10. -/
theorem modelTransform_flat_offset_depth :
    Arrow3d.arrowScale sampleSurroundings sampleFlatScreen 1 = 12 ∧
    (Arrow3d.postProjectionScale sampleFlatScreen).2.2 = 1 / 10 ∧
    sampleOffsetMarker.m_meshScale = (1, 1, 1) ∧
    sampleOffsetMarker.m_meshOffset = (0, 0, 1) ∧
    glm.mulVec (sampleOffsetMarker.modelTransform sampleSurroundings sampleFlatScreen 0 1)
      (glm.components 0 0 0 1) 2 = 1 / 10 ∧
    (1 / 10 : ℚ) ≠ 0 + 1 / 10 * (12 * 1) * 1 := by
  refine ⟨?_, ?_, rfl, rfl, ?_, by norm_num⟩
  · norm_num [Arrow3d.arrowScale, sampleSurroundings, sampleFlatScreen, arrow3d.kArrowSize]
  · norm_num [Arrow3d.postProjectionScale, sampleFlatScreen]
  · rw [mulVec_origin, (modelTransform_column_w _ _ _ _ _).2.2]
    norm_num [Arrow3d.postProjectionTranslation, Arrow3d.postProjectionScale, sampleFlatScreen,
      sampleOffsetMarker, sampleMarker, Arrow3d.SetMeshOffset, Arrow3d.SetPosition,
      Arrow3d.initial]

/-- C15 (amended): the model matrix of `CalculateTransform` is
translate(NDC position) * scale(post-projection factors) * scale(size vector
times mesh scale) * translate(mesh offset) * rotation, where the NDC position
is `(2 * px / W - 1, -(2 * py / H - 1), dz)` for the pixel position `(px, py)`
of the marker and the size vector is `(size, size, size)` in perspective mode
and `(size, size, 1)` in flat mode. For every azimuth, view angle and mesh
Euler angles the mesh origin is sent to the NDC position plus the mesh offset
scaled componentwise by the post-projection factors and by the size vector
times the mesh scale. With zero offset and the pixel position inside the
viewport, x and y of that point lie in `[-1, 1]`, and pixel (0,0) is sent to
`(-1, +1)`. -/
theorem modelTransform_places_origin {α : Type} (env : Surroundings) (self : Arrow3d α)
    (screen : ScreenBase) (dz scaleFactor : ℚ) :
    self.modelTransform env screen dz scaleFactor =
      glm.mul (glm.mul (glm.mul (glm.mul
        (glm.translate
          (2 * (screen.GtoP self.m_position).1 / screen.PixelRectSizeX - 1,
            -(2 * (screen.GtoP self.m_position).2 / screen.PixelRectSizeY - 1), dz))
        (glm.scale
          (2 / screen.PixelRectSizeX, 2 / screen.PixelRectSizeY,
            if screen.isPerspective then
              min (2 / screen.PixelRectSizeX) (2 / screen.PixelRectSizeY) * screen.GetScale3d
            else 1 / 10)))
        (glm.scale (glm.mulVec3
          (Arrow3d.arrowScale env screen scaleFactor, Arrow3d.arrowScale env screen scaleFactor,
            if screen.isPerspective then Arrow3d.arrowScale env screen scaleFactor else 1)
          self.m_meshScale)))
        (glm.translate self.m_meshOffset))
        (Arrow3d.rotationMatrix env self screen) ∧
    glm.mulVec (self.modelTransform env screen dz scaleFactor) (glm.components 0 0 0 1) =
      glm.components
        (2 * (screen.GtoP self.m_position).1 / screen.PixelRectSizeX - 1 +
          2 / screen.PixelRectSizeX *
            (Arrow3d.arrowScale env screen scaleFactor * self.m_meshScale.1) *
            self.m_meshOffset.1)
        (-(2 * (screen.GtoP self.m_position).2 / screen.PixelRectSizeY - 1) +
          2 / screen.PixelRectSizeY *
            (Arrow3d.arrowScale env screen scaleFactor * self.m_meshScale.2.1) *
            self.m_meshOffset.2.1)
        (dz +
          (if screen.isPerspective then
              min (2 / screen.PixelRectSizeX) (2 / screen.PixelRectSizeY) * screen.GetScale3d
            else 1 / 10) *
            ((if screen.isPerspective then Arrow3d.arrowScale env screen scaleFactor else 1) *
              self.m_meshScale.2.2) *
            self.m_meshOffset.2.2)
        1 ∧
    (self.m_meshOffset = (0, 0, 0) →
      glm.mulVec (self.modelTransform env screen dz scaleFactor) (glm.components 0 0 0 1) =
        glm.components
          (2 * (screen.GtoP self.m_position).1 / screen.PixelRectSizeX - 1)
          (-(2 * (screen.GtoP self.m_position).2 / screen.PixelRectSizeY - 1)) dz 1) ∧
    (0 < screen.PixelRectSizeX → 0 < screen.PixelRectSizeY →
      0 ≤ (screen.GtoP self.m_position).1 →
      (screen.GtoP self.m_position).1 ≤ screen.PixelRectSizeX →
      0 ≤ (screen.GtoP self.m_position).2 →
      (screen.GtoP self.m_position).2 ≤ screen.PixelRectSizeY →
      (-1 ≤ 2 * (screen.GtoP self.m_position).1 / screen.PixelRectSizeX - 1 ∧
        2 * (screen.GtoP self.m_position).1 / screen.PixelRectSizeX - 1 ≤ 1) ∧
      (-1 ≤ -(2 * (screen.GtoP self.m_position).2 / screen.PixelRectSizeY - 1) ∧
        -(2 * (screen.GtoP self.m_position).2 / screen.PixelRectSizeY - 1) ≤ 1)) ∧
    (screen.GtoP self.m_position = (0, 0) → self.m_meshOffset = (0, 0, 0) →
      glm.mulVec (self.modelTransform env screen dz scaleFactor) (glm.components 0 0 0 1) =
        glm.components (-1) 1 dz 1) := by
  have horigin : glm.mulVec (self.modelTransform env screen dz scaleFactor)
      (glm.components 0 0 0 1) =
      glm.components
        (2 * (screen.GtoP self.m_position).1 / screen.PixelRectSizeX - 1 +
          2 / screen.PixelRectSizeX *
            (Arrow3d.arrowScale env screen scaleFactor * self.m_meshScale.1) *
            self.m_meshOffset.1)
        (-(2 * (screen.GtoP self.m_position).2 / screen.PixelRectSizeY - 1) +
          2 / screen.PixelRectSizeY *
            (Arrow3d.arrowScale env screen scaleFactor * self.m_meshScale.2.1) *
            self.m_meshOffset.2.1)
        (dz +
          (if screen.isPerspective then
              min (2 / screen.PixelRectSizeX) (2 / screen.PixelRectSizeY) * screen.GetScale3d
            else 1 / 10) *
            ((if screen.isPerspective then Arrow3d.arrowScale env screen scaleFactor else 1) *
              self.m_meshScale.2.2) *
            self.m_meshOffset.2.2)
        1 := by
    obtain ⟨c0, c1, c2⟩ := modelTransform_column_w env self screen dz scaleFactor
    funext r
    rw [mulVec_origin]
    fin_cases r
    · exact c0
    · exact c1
    · exact c2
    · exact (modelTransform_row_w env self screen dz scaleFactor).2.2.2
  refine ⟨rfl, horigin, ?_, ?_, ?_⟩
  · intro hoff
    rw [horigin, hoff]
    simp
  · intro hW hH hx0 hx1 hy0 hy1
    have ex : 0 ≤ 2 * (screen.GtoP self.m_position).1 / screen.PixelRectSizeX ∧
        2 * (screen.GtoP self.m_position).1 / screen.PixelRectSizeX ≤ 2 :=
      ⟨div_nonneg (by linarith) (le_of_lt hW), by rw [div_le_iff₀ hW]; linarith⟩
    have ey : 0 ≤ 2 * (screen.GtoP self.m_position).2 / screen.PixelRectSizeY ∧
        2 * (screen.GtoP self.m_position).2 / screen.PixelRectSizeY ≤ 2 :=
      ⟨div_nonneg (by linarith) (le_of_lt hH), by rw [div_le_iff₀ hH]; linarith⟩
    exact ⟨⟨by linarith [ex.1], by linarith [ex.2]⟩, ⟨by linarith [ey.2], by linarith [ey.1]⟩⟩
  · intro hpos hoff
    rw [horigin, hoff, hpos]
    simp

/-- C15 (amended) at the sample marker with default placement in the sample
flat view: pixel (50, 25) of the 200 by 100 viewport is sent to
`(-1/2, 1/2, 0, 1)`, inside `[-1, 1]`. -/
theorem modelTransform_places_origin_witness :
    glm.mulVec (sampleMarker.modelTransform sampleSurroundings sampleFlatScreen 0 1)
        (glm.components 0 0 0 1) = glm.components (-1 / 2) (1 / 2) 0 1 := by
  have h := (modelTransform_places_origin sampleSurroundings sampleMarker sampleFlatScreen 0
    1).2.2.1 rfl
  rw [h]
  norm_num [sampleFlatScreen, sampleMarker, Arrow3d.SetPosition, Arrow3d.initial]

/-! ## Bounds of the flattening loop -/

theorem u32_le (n : Nat) : u32 n ≤ n := Nat.mod_le _ _

theorem copyCorner_inside {α : Type} {count c i k : Nat} {dst src : List α}
    (hsrc : src.length = c * count) (hk : count > 1 → k < count)
    (hd : count > 1 → u32 (i * c) + c ≤ dst.length) :
    ∃ r, copyCorner count c dst i src (some k) = Exec.ok r ∧ r.length = dst.length := by
  by_cases hc : count > 1
  · have hs : u32 (k * c) + c ≤ src.length := by
      have h1 := u32_le (k * c)
      have h2 : k * c + c ≤ c * count := by
        calc k * c + c = c * (k + 1) := by ring
          _ ≤ c * count := Nat.mul_le_mul_left c (hk hc)
      omega
    have hcond : u32 (i * c) + c ≤ dst.length ∧ u32 (k * c) + c ≤ src.length := ⟨hd hc, hs⟩
    have hm : memcpy dst (u32 (i * c)) src (u32 (k * c)) c =
        Exec.ok (dst.take (u32 (i * c)) ++ (src.drop (u32 (k * c))).take c ++
          dst.drop (u32 (i * c) + c)) := by
      simp only [memcpy, if_pos hcond]
    have he : copyCorner count c dst i src (some k) =
        Exec.ok (dst.take (u32 (i * c)) ++ (src.drop (u32 (k * c))).take c ++
          dst.drop (u32 (i * c) + c)) := by
      simp only [copyCorner, if_pos hc, hm]
    exact ⟨_, he, (memcpy_ok hm).2⟩
  · exact ⟨dst, by simp only [copyCorner, if_neg hc], rfl⟩

theorem fillCorner_inside {α : Type} (m : fastObjMesh α)
    (hp : m.positions.length = 3 * m.position_count)
    (hn : m.normals.length = 3 * m.normal_count)
    (ht : m.texcoords.length = 2 * m.texcoord_count) (hin : InRange m)
    (hfit : 3 * m.index_count < 2 ^ 32) (i : Nat) (ix : fastObjIndex)
    (hix : m.indices[i]? = some ix) (hi : i < m.index_count) (b : MeshBuffers α)
    (lp : m.position_count > 1 → b.positions.length = 3 * m.index_count)
    (ln : m.normal_count > 1 → b.normals.length = 3 * m.index_count)
    (lt : m.texcoord_count > 1 → b.texCoords.length = 2 * m.index_count) :
    ∃ r, fillCorner m i b = Exec.ok r ∧ sameLengths b r := by
  have hmem : ix ∈ m.indices := List.getElem?_mem hix
  obtain ⟨rp, hrp, lrp⟩ := @copyCorner_inside α m.position_count kComponentsInVertex i ix.p
    b.positions m.positions hp (hin ix hmem).1
    (fun hc => by
      rw [lp hc]
      show u32 (i * 3) + 3 ≤ _
      rw [u32_of_lt (by omega)]
      omega)
  obtain ⟨rn, hrn, lrn⟩ := @copyCorner_inside α m.normal_count kComponentsInNormal i ix.n
    b.normals m.normals hn (hin ix hmem).2.1
    (fun hc => by
      rw [ln hc]
      show u32 (i * 3) + 3 ≤ _
      rw [u32_of_lt (by omega)]
      omega)
  obtain ⟨rt, hrt, lrt⟩ := @copyCorner_inside α m.texcoord_count kComponentsInTexCoord i ix.t
    b.texCoords m.texcoords ht (hin ix hmem).2.2
    (fun hc => by
      rw [lt hc]
      show u32 (i * 2) + 2 ≤ _
      rw [u32_of_lt (by omega)]
      omega)
  refine ⟨{ positions := rp, normals := rn, texCoords := rt }, ?_, lrp, lrn, lrt⟩
  simp only [fillCorner, hix, Option.map_some', hrp, hrn, hrt, Exec.bind]

theorem fillLoop_inside {α : Type} (m : fastObjMesh α)
    (hp : m.positions.length = 3 * m.position_count)
    (hn : m.normals.length = 3 * m.normal_count)
    (ht : m.texcoords.length = 2 * m.texcoord_count)
    (hlen : m.indices.length = m.index_count) (hin : InRange m)
    (hfit : 3 * m.index_count < 2 ^ 32) (remaining i : Nat)
    (h : i + remaining ≤ m.index_count) (b : MeshBuffers α)
    (lp : m.position_count > 1 → b.positions.length = 3 * m.index_count)
    (ln : m.normal_count > 1 → b.normals.length = 3 * m.index_count)
    (lt : m.texcoord_count > 1 → b.texCoords.length = 2 * m.index_count) :
    ∃ r, fillLoop m remaining i b = Exec.ok r ∧ sameLengths b r := by
  induction remaining generalizing i b with
  | zero => exact ⟨b, rfl, rfl, rfl, rfl⟩
  | succ n ih =>
    have hi : i < m.indices.length := by omega
    obtain ⟨b1, hb1, s1⟩ := fillCorner_inside m hp hn ht hin hfit i m.indices[i]
      (List.getElem?_eq_getElem hi) (by omega) b lp ln lt
    obtain ⟨r, hr, s2⟩ := ih (i + 1) (by omega) b1
      (fun hc => by rw [s1.1, lp hc]) (fun hc => by rw [s1.2.1, ln hc])
      (fun hc => by rw [s1.2.2, lt hc])
    refine ⟨r, ?_, s2.1.trans s1.1, s2.2.1.trans s1.2.1, s2.2.2.trans s1.2.2⟩
    rw [fillLoop, hb1]
    exact hr

/-- C18: for a parsed mesh with K face corners such that `3 * K` fits in 32
bits, whose corners refer, in each channel with more than one entry, to an
index below the entry count, the flattening loop of `LoadMesh` never leaves a
vector: the run completes (an access outside a vector would end it), every
source read of 3 or 2 floats at `index * 3` or `index * 2` lies inside the
source array, every destination write at `i * 3` or `i * 2` lies inside the
resized output vector, and a channel with at most one entry is not resized,
read or written. -/
theorem fillBuffers_stays_inside {α : Type} [Zero α] (m : fastObjMesh α)
    (hp : m.positions.length = 3 * m.position_count)
    (hn : m.normals.length = 3 * m.normal_count)
    (ht : m.texcoords.length = 2 * m.texcoord_count)
    (hlen : m.indices.length = m.index_count) (hfit : 3 * m.index_count < 2 ^ 32)
    (hin : InRange m) :
    (∃ b, fillBuffers m = Exec.ok b ∧
      b.positions.length = (if m.position_count > 1 then 3 * m.index_count else 0) ∧
      b.normals.length = (if m.normal_count > 1 then 3 * m.index_count else 0) ∧
      b.texCoords.length = (if m.texcoord_count > 1 then 2 * m.index_count else 0)) ∧
    (∀ i ix, m.indices[i]? = some ix →
      (m.position_count > 1 →
        u32 (ix.p * kComponentsInVertex) + kComponentsInVertex ≤ m.positions.length ∧
        u32 (i * kComponentsInVertex) + kComponentsInVertex ≤
          (resizeChannel m.position_count m.index_count kComponentsInVertex : List α).length) ∧
      (m.normal_count > 1 →
        u32 (ix.n * kComponentsInNormal) + kComponentsInNormal ≤ m.normals.length ∧
        u32 (i * kComponentsInNormal) + kComponentsInNormal ≤
          (resizeChannel m.normal_count m.index_count kComponentsInNormal : List α).length) ∧
      (m.texcoord_count > 1 →
        u32 (ix.t * kComponentsInTexCoord) + kComponentsInTexCoord ≤ m.texcoords.length ∧
        u32 (i * kComponentsInTexCoord) + kComponentsInTexCoord ≤
          (resizeChannel m.texcoord_count m.index_count kComponentsInTexCoord :
            List α).length)) ∧
    (∀ (count components i : Nat) (dst src : List α) (idx : Option Nat), count ≤ 1 →
      (resizeChannel count m.index_count components : List α) = [] ∧
      copyCorner count components dst i src idx = Exec.ok dst) := by
  have rl : ∀ (count c : Nat), count > 1 → c * m.index_count < 2 ^ 32 →
      (resizeChannel count m.index_count c : List α).length = c * m.index_count := by
    intro count c hc hlt
    rw [resizeChannel_length _ _ _ hc, Nat.mul_comm, u32_of_lt hlt]
  refine ⟨?_, ?_, ?_⟩
  · obtain ⟨b, hb, sp, sn, st⟩ := fillLoop_inside m hp hn ht hlen hin hfit m.index_count 0
      (by omega)
      { positions := resizeChannel m.position_count m.index_count kComponentsInVertex
        normals := resizeChannel m.normal_count m.index_count kComponentsInNormal
        texCoords := resizeChannel m.texcoord_count m.index_count kComponentsInTexCoord }
      (fun hc => rl _ 3 hc hfit) (fun hc => rl _ 3 hc hfit) (fun hc => rl _ 2 hc (by omega))
    refine ⟨b, hb, ?_, ?_, ?_⟩
    · rw [sp]
      by_cases hc : m.position_count > 1
      · rw [if_pos hc]; exact rl _ 3 hc hfit
      · simp [resizeChannel, hc]
    · rw [sn]
      by_cases hc : m.normal_count > 1
      · rw [if_pos hc]; exact rl _ 3 hc hfit
      · simp [resizeChannel, hc]
    · rw [st]
      by_cases hc : m.texcoord_count > 1
      · rw [if_pos hc]; exact rl _ 2 hc (by omega)
      · simp [resizeChannel, hc]
  · intro i ix hix
    have hmem : ix ∈ m.indices := List.getElem?_mem hix
    have hi : i < m.index_count := by
      rw [← hlen]
      exact (List.getElem?_eq_some_iff.mp hix).1
    have hr := hin ix hmem
    refine ⟨fun hc => ⟨?_, ?_⟩, fun hc => ⟨?_, ?_⟩, fun hc => ⟨?_, ?_⟩⟩
    · have := u32_le (ix.p * kComponentsInVertex)
      have := hr.1 hc
      simp only [kComponentsInVertex] at *
      omega
    · rw [rl _ kComponentsInVertex hc hfit, u32_of_lt (by simp only [kComponentsInVertex]; omega)]
      simp only [kComponentsInVertex]
      omega
    · have := u32_le (ix.n * kComponentsInNormal)
      have := hr.2.1 hc
      simp only [kComponentsInNormal] at *
      omega
    · rw [rl _ kComponentsInNormal hc hfit, u32_of_lt (by simp only [kComponentsInNormal]; omega)]
      simp only [kComponentsInNormal]
      omega
    · have := u32_le (ix.t * kComponentsInTexCoord)
      have := hr.2.2 hc
      simp only [kComponentsInTexCoord] at *
      omega
    · rw [rl _ kComponentsInTexCoord hc (by simp only [kComponentsInTexCoord]; omega),
        u32_of_lt (by simp only [kComponentsInTexCoord]; omega)]
      simp only [kComponentsInTexCoord]
      omega
  · intro count components i dst src idx hc
    have hn1 : ¬ count > 1 := by omega
    exact ⟨by simp only [resizeChannel, if_neg hn1], by simp only [copyCorner, if_neg hn1]⟩

/-- C18 at the sample mesh with all three channels: the run completes with 9,
9 and 6 floats. -/
theorem fillBuffers_stays_inside_witness :
    InRange sampleFullMesh ∧ 3 * sampleFullMesh.index_count < 2 ^ 32 ∧
    ∃ b, fillBuffers sampleFullMesh = Exec.ok b ∧ b.positions.length = 9 ∧
      b.normals.length = 9 ∧ b.texCoords.length = 6 := by
  obtain ⟨b, hb, lp, ln, lt⟩ :=
    (fillBuffers_stays_inside sampleFullMesh rfl rfl rfl rfl (by decide) (by decide)).1
  exact ⟨by decide, by decide, b, hb, lp, ln, lt⟩

/-! ## Draining the stream -/

theorem drain_finishes (sizeBits : Nat) (request : Nat → Nat)
    (hreq : ∀ k, 1 ≤ request k ∧ request k < 2 ^ sizeBits) (fuel : Nat) (k : Nat)
    (reader : ReaderSource) (hfuel : reader.Size + 1 ≤ fuel) :
    ∃ d, fast_obj_adapter.drain sizeBits request fuel k reader = Exec.ok (some d) ∧
      d.calls ≤ reader.Size + 1 ∧ d.counts.length = d.calls ∧ d.counts.sum = reader.Size ∧
      d.chunks.flatten = reader.rest ∧ d.reader.Size = 0 := by
  induction fuel generalizing k reader with
  | zero => omega
  | succ n ih =>
    have hread := FileRead_eq sizeBits reader (request k) (hreq k).2
    by_cases h0 : reader.Size = 0
    · have hmin : min (request k) reader.Size = 0 := by rw [h0]; exact Nat.min_zero _
      have hnil : reader.rest = [] := List.length_eq_zero.mp h0
      rw [hmin] at hread
      refine ⟨⟨1, [0], [[]], ⟨reader.pos + 0, reader.rest.drop 0⟩⟩, ?_, ?_, rfl, ?_, ?_, ?_⟩
      · simp only [fast_obj_adapter.drain, hread, Exec.bind, if_true, List.take_zero]
      · simp
      · simp [h0]
      · simp [hnil]
      · simp [ReaderSource.Size, hnil]
    · have hpos : 1 ≤ min (request k) reader.Size := by
        have := (hreq k).1
        exact Nat.le_min.mpr ⟨this, by omega⟩
      have hle : min (request k) reader.Size ≤ reader.Size := Nat.min_le_right _ _
      have hsize : (ReaderSource.mk (reader.pos + min (request k) reader.Size)
          (reader.rest.drop (min (request k) reader.Size))).Size =
          reader.Size - min (request k) reader.Size := by
        simp [ReaderSource.Size]
      obtain ⟨d, hd, hcalls, hlen, hsum, hchunks, hend⟩ := ih (k + 1)
        (ReaderSource.mk (reader.pos + min (request k) reader.Size)
          (reader.rest.drop (min (request k) reader.Size)))
        (by rw [hsize]; omega)
      refine ⟨⟨d.calls + 1, min (request k) reader.Size :: d.counts,
          reader.rest.take (min (request k) reader.Size) :: d.chunks, d.reader⟩,
        ?_, ?_, ?_, ?_, ?_, hend⟩
      · simp only [fast_obj_adapter.drain, hread, Exec.bind]
        rw [if_neg (by omega), hd]
        rfl
      · simp only
        rw [hsize] at hcalls
        omega
      · simp [hlen]
      · simp only [List.sum_cons, hsum, hsize]
        omega
      · simp only [List.flatten_cons, hchunks, List.take_append_drop]

/-- C19 (as stated, refuted): on a build with a 32-bit `size_t`, a stream with
`2 ^ 32` remaining bytes. Its length is not a value of the size type and
`FileSize`, called before the first read, aborts instead of returning it. -/
theorem FileSize_aborts_before_drain :
    ({ pos := 0, rest := List.replicate (2 ^ 32) 0 } : ReaderSource).Size = 2 ^ 32 ∧
    fast_obj_adapter.FileSize 32 (some { pos := 0, rest := List.replicate (2 ^ 32) 0 }) =
      Exec.checkFailed := by
  refine ⟨by simp only [ReaderSource.Size, List.length_replicate], ?_⟩
  rw [FileSize_eq]
  simp only [ReaderSource.Size, List.length_replicate]
  rw [if_neg (by norm_num)]

/-- C19 (amended): draining a stream through the adapter terminates and loses
nothing. Starting from any stream with `r` remaining bytes, calling `FileRead`
with request sizes that are at least 1 until it returns 0 stops after at most
`r + 1` calls, the returned counts sum to `r`, and the chunks written to
`dst`, concatenated in call order, are the `r` remaining bytes of the stream in
order. `FileSize` called before the first read returns that same `r` when `r`
is below the maximum value of the size type, and aborts when `r` is above it. -/
theorem drain_loses_nothing (sizeBits : Nat) (request : Nat → Nat)
    (hreq : ∀ k, 1 ≤ request k ∧ request k < 2 ^ sizeBits) (reader : ReaderSource)
    (fuel : Nat) (hfuel : reader.Size + 1 ≤ fuel) :
    (∃ d, fast_obj_adapter.drain sizeBits request fuel 0 reader = Exec.ok (some d) ∧
      d.calls ≤ reader.Size + 1 ∧ d.counts.length = d.calls ∧ d.counts.sum = reader.Size ∧
      d.chunks.flatten = reader.rest ∧ d.reader.Size = 0) ∧
    (reader.Size < 2 ^ sizeBits - 1 →
      fast_obj_adapter.FileSize sizeBits (some reader) = Exec.ok reader.Size) ∧
    (2 ^ sizeBits - 1 < reader.Size →
      fast_obj_adapter.FileSize sizeBits (some reader) = Exec.checkFailed) := by
  refine ⟨drain_finishes sizeBits request hreq fuel 0 reader hfuel, fun h => ?_, fun h => ?_⟩
  · rw [FileSize_eq, if_pos h]
  · rw [FileSize_eq, if_neg (by omega)]

/-- C19 (amended) at a stream of five bytes read in requests of two bytes:
four calls, the last of which returns 0. -/
theorem drain_loses_nothing_witness :
    (∀ k : Nat, 1 ≤ (fun _ => 2) k ∧ (fun _ => 2) k < 2 ^ 64) ∧
    fast_obj_adapter.drain 64 (fun _ => 2) 6 0 { pos := 0, rest := [10, 20, 30, 40, 50] } =
      Exec.ok (some { calls := 4, counts := [2, 2, 1, 0]
                      chunks := [[10, 20], [30, 40], [50], []]
                      reader := { pos := 5, rest := [] } }) ∧
    fast_obj_adapter.FileSize 64 (some { pos := 0, rest := [10, 20, 30, 40, 50] }) =
      Exec.ok 5 := by
  have h := drain_loses_nothing 64 (fun _ => 2) (fun _ => ⟨by norm_num, by norm_num⟩)
    { pos := 0, rest := [10, 20, 30, 40, 50] } 6 (by decide)
  refine ⟨fun _ => ⟨by norm_num, by norm_num⟩, ?_, h.2.1 (by decide)⟩
  obtain ⟨d, hd, -⟩ := h.1
  rfl

end df
